import Mathlib

/-!
# Verification of the kitsune-wallpaperengine scene compilation pipeline

A shallow embedding, in Lean 4, of the pure core of the scene compilation
pipeline (container reader, texture payload signature scan, asset path
normalization, scene script and visibility evaluator, effect graph builder,
native plan classifier, uniform timeline generator), together with theorems
settling the specification claims about it.

Modelling conventions:
* Rust machine integers are modelled as `Nat` with explicit bounds where
  overflow matters; IEEE floats (`f32`/`f64`) are modelled as `ℚ`
  (exact arithmetic; transcendental operations are abstracted as explicitly
  quantified function parameters where a claim needs them).
* Byte buffers are `List Nat` (each element a byte value), strings that the
  source manipulates by bytes or chars are `List Char` (the source data is
  ASCII in every code path the claims exercise).
* File system and archive reads (`AssetResolver::resolve`) are abstracted as
  an oracle `Resolver`: the composition of the layered lookup with
  `serde_json::from_slice` / `String::from_utf8` on the returned bytes.
* `serde_json::Value` objects and `BTreeMap`s are association lists; only
  key lookup and whole-value equality are relevant to the claims, so the
  iteration order of maps is not modelled.
* Loops over string slices are written with an explicit fuel argument equal
  to (one more than) the slice length; every iteration of the corresponding
  source loop strictly shrinks the slice, so the fuel is never exhausted.
-/

/-- A JSON value as produced by serde_json (numbers collapsed to `ℚ`). -/
inductive Json where
  | null : Json
  | bool (b : Bool) : Json
  | num (q : ℚ) : Json
  | str (s : String) : Json
  | arr (items : List Json) : Json
  | obj (fields : List (String × Json)) : Json

mutual

/-- Structural equality of JSON values (serde `PartialEq` on `Value`). -/
def Json.beq : Json → Json → Bool
  | .null, .null => true
  | .bool a, .bool b => a == b
  | .num a, .num b => a == b
  | .str a, .str b => a == b
  | .arr xs, .arr ys => Json.beqList xs ys
  | .obj xs, .obj ys => Json.beqFields xs ys
  | _, _ => false

/-- Element-wise equality of JSON arrays. -/
def Json.beqList : List Json → List Json → Bool
  | [], [] => true
  | a :: as, b :: bs => Json.beq a b && Json.beqList as bs
  | _, _ => false

/-- Entry-wise equality of JSON objects. -/
def Json.beqFields : List (String × Json) → List (String × Json) → Bool
  | [], [] => true
  | (ka, va) :: as, (kb, vb) :: bs =>
      ka == kb && Json.beq va vb && Json.beqFields as bs
  | _, _ => false

end

namespace Json

/-- Field lookup on a JSON object (serde `Value::get`). -/
def get (v : Json) (key : String) : Option Json :=
  match v with
  | .obj fields => (fields.find? (fun p => p.1 = key)).map (·.2)
  | _ => none

/-- serde `Value::as_str`. -/
def asStr : Json → Option String
  | .str s => some s
  | _ => none

/-- serde `Value::as_bool`. -/
def asBool : Json → Option Bool
  | .bool b => some b
  | _ => none

/-- serde `Value::as_array`. -/
def asArr : Json → Option (List Json)
  | .arr xs => some xs
  | _ => none

/-- serde `Value::as_object` (fields in order). -/
def asObj : Json → Option (List (String × Json))
  | .obj fields => some fields
  | _ => none

/-- serde `Value::as_u64`: integral, non-negative, below `2^64`. -/
def asU64 : Json → Option Nat
  | .num q => if q.den = 1 ∧ 0 ≤ q.num ∧ q.num < 2 ^ 64 then some q.num.toNat else none
  | _ => none

/-- serde `Value::as_f64` (numbers only). -/
def asF64 : Json → Option ℚ
  | .num q => some q
  | _ => none

end Json

/-! ## String utilities shared across components -/

/-- ASCII whitespace (the characters `str::trim` strips in the data the
pipeline handles). -/
def isRustWs (c : Char) : Bool :=
  c = ' ' ∨ c = '\t' ∨ c = '\n' ∨ c = '\r'

/-- Trim on a character list: drop whitespace from both ends. -/
def trimChars (l : List Char) : List Char :=
  ((l.dropWhile isRustWs).reverse.dropWhile isRustWs).reverse

/-- Rust `str::trim`. -/
def rustTrim (s : String) : String := ⟨trimChars s.data⟩

/-- Rust `char::to_ascii_lowercase`. -/
def asciiLowerChar (c : Char) : Char :=
  if 'A' ≤ c ∧ c ≤ 'Z' then Char.ofNat (c.toNat + 32) else c

/-- Rust `str::to_ascii_lowercase`. -/
def asciiLowerStr (s : String) : String := ⟨s.data.map asciiLowerChar⟩

/-- Rust `str::starts_with` on our string model. -/
def strStartsWith (s p : String) : Bool := p.data.isPrefixOf s.data

/-- Rust `str::ends_with`. -/
def strEndsWith (s p : String) : Bool := p.data.reverse.isPrefixOf s.data.reverse

/-- Rust `str::eq_ignore_ascii_case`. -/
def strEqIgnoreCase (a b : String) : Bool := asciiLowerStr a = asciiLowerStr b

/-! ## Native plan classifier: shader families (`scene_native_runtime.rs`) -/

/-- Renderer readiness tier of a pass. -/
inductive NativeSupportTier where
  | Ready : NativeSupportTier
  | Experimental : NativeSupportTier
  | Unsupported : NativeSupportTier
  deriving DecidableEq, Repr

/-- `shader_family` from `scene_native_runtime.rs`: map a shader name to its
family string by prefix tests over the trimmed, ASCII-lowercased name. -/
def shader_family (shader : String) : String :=
  let normalized := asciiLowerStr (rustTrim shader)
  if normalized.data = [] then "unknown"
  else if strStartsWith normalized "effects/" then "effects"
  else if strStartsWith normalized "genericimage" then "genericimage"
  else if normalized = "particle" ∨ strStartsWith normalized "genericparticle" then
    "particle"
  else if strStartsWith normalized "generic" then "generic"
  else normalized

/-- `classify_family`: support tier and reason for a shader name. -/
def classify_family (shader : String) : NativeSupportTier × String :=
  let family := shader_family shader
  if family = "genericimage" then
    (.Ready, "direct textured quad family")
  else if family = "flowimage" then
    (.Ready, "flow image approximated as textured layer (native parity in progress)")
  else if family = "particle" then
    (.Ready, "sprite particle family")
  else if family = "generic" then
    (.Experimental, "3D generic material family pending mesh/lighting parity")
  else if family = "effects" ∨ family = "flag" then
    (.Experimental, "effect family pending full compositor parity")
  else if family = "unknown" then
    (.Unsupported, "shader field missing")
  else
    (.Unsupported, "shader family not mapped yet")

/-- A list is always a (boolean) prefix of itself. -/
theorem isPrefixOf_self_eq_true (l : List Char) : l.isPrefixOf l = true := by
  induction l with
  | nil => rfl
  | cons a t ih => simp [List.isPrefixOf, ih]

/-- A string always starts with itself. -/
theorem strStartsWith_self (s : String) : strStartsWith s s = true :=
  isPrefixOf_self_eq_true s.data

/-- Decision table stated by the amended claim C6: tier of a pass as a
function of the trimmed, ASCII-lowercased shader name. -/
def specShaderTier (s : String) : NativeSupportTier :=
  let n := asciiLowerStr (rustTrim s)
  if n.data = [] then .Unsupported
  else if strStartsWith n "effects/" then .Experimental
  else if strStartsWith n "genericimage" then .Ready
  else if n = "particle" ∨ strStartsWith n "genericparticle" then .Ready
  else if strStartsWith n "generic" then .Experimental
  else if n = "flowimage" then .Ready
  else if n = "flag" ∨ n = "effects" then .Experimental
  else .Unsupported

/-- C6 counterexample: the claim says every shader name starting with
`flowimage` is Ready, but the classifier matches the family string exactly,
so `flowimagewave` (which starts with `flowimage`) is Unsupported. -/
theorem classify_family_flowimage_prefix_not_ready :
    strStartsWith (asciiLowerStr (rustTrim "flowimagewave")) "flowimage" = true ∧
    (classify_family "flowimagewave").1 = NativeSupportTier.Unsupported := by
  constructor <;> decide

/-- C6 (amended): the support tier assigned by `classify_family` follows the
decision table over the trimmed lowercased shader name: `effects/` prefix →
Experimental, `genericimage` prefix → Ready, exactly `particle` or
`genericparticle` prefix → Ready, remaining `generic` prefix → Experimental,
exactly `flowimage` → Ready, exactly `flag` or exactly `effects` →
Experimental, empty or anything else → Unsupported. -/
theorem classify_family_matches_table (s : String) :
    (classify_family s).1 = specShaderTier s := by
  unfold classify_family specShaderTier shader_family
  generalize asciiLowerStr (rustTrim s) = n
  by_cases h1 : n.data = []
  · simp [h1]
  by_cases h2 : strStartsWith n "effects/"
  · simp [h1, h2]
  by_cases h3 : strStartsWith n "genericimage"
  · simp [h1, h2, h3]
  by_cases h4 : n = "particle" ∨ strStartsWith n "genericparticle"
  · simp [h1, h2, h3, h4]
  by_cases h5 : strStartsWith n "generic"
  · simp [h1, h2, h3, h4, h5]
  have hgi : ¬(n = "genericimage") := fun h => by
    rw [h] at h3; exact h3 (strStartsWith_self _)
  have hpart : ¬(n = "particle") := fun h => h4 (Or.inl h)
  have hgen : ¬(n = "generic") := fun h => by
    rw [h] at h5; exact h5 (strStartsWith_self _)
  obtain ⟨h4a, h4b⟩ := not_or.mp h4
  by_cases h6 : n = "flowimage"
  · subst h6; decide
  by_cases h7 : n = "flag"
  · subst h7; decide
  by_cases h8 : n = "effects"
  · subst h8; decide
  by_cases h9 : n = "unknown"
  · subst h9; decide
  simp [h1, h2, h3, h4a, h4b, h5, h6, h7, h8, h9, hgi, hpart, hgen]

/-! ## Uniform timeline generator (`scene_runtime.rs`, `audio.rs`) -/

/-- One captured audio level frame (`AudioLevelFrame` in `audio.rs`). -/
structure AudioLevelFrame where
  frame_index : Nat
  peak : ℚ
  rms : ℚ
  deriving DecidableEq, Repr

/-- One uniform record of the timeline (`UniformFrame`). -/
structure UniformFrame where
  frame_index : Nat
  time_s : ℚ
  rms : ℚ
  peak : ℚ
  energy : ℚ
  beat : ℚ
  deriving DecidableEq, Repr

/-- The capture result (`AudioStreamResult`), with only the fields the
runtime populates. -/
structure AudioStreamResult where
  source : String
  sample_rate : Nat
  channels : Nat
  frame_ms : Nat
  duration_ms : Nat
  samples : Nat
  frames : List AudioLevelFrame
  deriving Repr

/-- `clamp01` from `scene_runtime.rs` (`v.clamp(0.0, 1.0)`). -/
def clamp01 (v : ℚ) : ℚ := max 0 (min 1 v)

/-- Recursive core of `build_uniform_timeline`, threading the `ema_rms`
accumulator.  The float power `(x).powf(0.75)` is abstracted as the
function argument `powf34`. -/
def build_uniform_timeline_aux (powf34 : ℚ → ℚ) (frame_ms : Nat) :
    ℚ → List AudioLevelFrame → List UniformFrame
  | _, [] => []
  | ema0, f :: rest =>
      let ema := ema0 * (85 / 100) + f.rms * (15 / 100)
      let energy := clamp01 (powf34 (f.rms * 3))
      let threshold := max (ema * (155 / 100)) (2 / 100)
      let beat := if threshold < f.peak then clamp01 ((f.peak - threshold) * (9 / 2)) else 0
      { frame_index := f.frame_index
        time_s := ((f.frame_index : ℚ) * (frame_ms : ℚ)) / 1000
        rms := f.rms
        peak := f.peak
        energy := energy
        beat := beat } :: build_uniform_timeline_aux powf34 frame_ms ema rest

/-- `build_uniform_timeline` from `scene_runtime.rs`: the `ema_rms`
accumulator starts at `0.0`. -/
def build_uniform_timeline (powf34 : ℚ → ℚ) (frames : List AudioLevelFrame)
    (frame_ms : Nat) : List UniformFrame :=
  build_uniform_timeline_aux powf34 frame_ms 0 frames

/-- `silent_audio_stream` from `scene_runtime.rs`: the silent fallback
timeline synthesized when live capture fails.  `u64::saturating_mul` is
modelled by `min _ (2^64 - 1)`. -/
def silent_audio_stream (source : Option String) (seconds frame_ms : Nat) :
    AudioStreamResult :=
  let total := min (seconds * 1000) (2 ^ 64 - 1)
  let frame_count := max (total / max frame_ms 1) 1
  { source := source.getD "silent-fallback"
    sample_rate := 48000
    channels := 2
    frame_ms := frame_ms
    duration_ms := total
    samples := 0
    frames := (List.range frame_count).map (fun i => ⟨i, 0, 0⟩) }

/-- Frame count stated by claim C4: `ceil(seconds·1000 / frame_ms)`. -/
def specCeilFrames (seconds frame_ms : Nat) : Nat :=
  (seconds * 1000 + frame_ms - 1) / frame_ms

/-- C4 counterexample: at `seconds = 1`, `frame_ms = 3` the synthesized
silent timeline has `⌊1000/3⌋ = 333` frames, not the `⌈1000/3⌉ = 334`
frames the claim states. -/
theorem silent_timeline_count_not_ceil :
    (silent_audio_stream none 1 3).frames.length = 333 ∧
    specCeilFrames 1 3 = 334 := by
  constructor
  · simp [silent_audio_stream]
  · decide

/-- Every frame of the timeline built from all-zero level frames is
all-zero (for any start value of the `ema_rms` accumulator). -/
theorem build_uniform_timeline_aux_zero (powf34 : ℚ → ℚ) (hp : powf34 0 = 0)
    (frame_ms : Nat) (frames : List AudioLevelFrame)
    (hz : ∀ f ∈ frames, f.peak = 0 ∧ f.rms = 0) (ema : ℚ) :
    ∀ u ∈ build_uniform_timeline_aux powf34 frame_ms ema frames,
      u.peak = 0 ∧ u.rms = 0 ∧ u.energy = 0 ∧ u.beat = 0 := by
  induction frames generalizing ema with
  | nil => intro u hu; simp [build_uniform_timeline_aux] at hu
  | cons f rest ih =>
      intro u hu
      obtain ⟨hfp, hfr⟩ := hz f (List.mem_cons_self f rest)
      simp only [build_uniform_timeline_aux, List.mem_cons] at hu
      rcases hu with rfl | hu
      · refine ⟨hfp, hfr, ?_, ?_⟩
        · simp [hfr, hp, clamp01]
        · have hthr : (0 : ℚ) < max ((ema * (85 / 100) + f.rms * (15 / 100)) * (155 / 100)) (2 / 100) :=
            lt_of_lt_of_le (by norm_num) (le_max_right _ _)
          simp only [hfp]
          rw [if_neg (by exact not_lt.mpr (le_of_lt hthr))]
      · exact ih (fun g hg => hz g (List.mem_cons_of_mem f hg)) _ u hu

/-- C4 (amended): when live audio capture fails and `seconds > 0`,
`frame_ms > 0`, `seconds·1000` fits in `u64`, the synthesized silent
timeline contains `max 1 ⌊seconds·1000 / frame_ms⌋` frames (floor division,
not ceiling), and every resulting uniform frame has
`peak = rms = energy = beat = 0` (for any model `powf34` of
`powf(·, 0.75)` with `powf34 0 = 0`). -/
theorem silent_timeline_floor_count_and_zero (seconds frame_ms : Nat)
    (hs : 0 < seconds) (hf : 0 < frame_ms)
    (hbound : seconds * 1000 < 2 ^ 64)
    (powf34 : ℚ → ℚ) (hp : powf34 0 = 0) :
    (silent_audio_stream none seconds frame_ms).frames.length =
      max 1 (seconds * 1000 / frame_ms) ∧
    ∀ u ∈ build_uniform_timeline powf34
        (silent_audio_stream none seconds frame_ms).frames frame_ms,
      u.peak = 0 ∧ u.rms = 0 ∧ u.energy = 0 ∧ u.beat = 0 := by
  have hmin : min (seconds * 1000) (2 ^ 64 - 1) = seconds * 1000 :=
    Nat.min_eq_left (Nat.le_sub_one_of_lt hbound)
  constructor
  · have hfm : max frame_ms 1 = frame_ms := Nat.max_eq_left hf
    have hmin2 : seconds * 1000 ⊓ 18446744073709551615 = seconds * 1000 :=
      Nat.min_eq_left (by omega)
    simp [silent_audio_stream, hfm, hmin2, Nat.max_comm]
  · apply build_uniform_timeline_aux_zero powf34 hp
    intro f hf
    simp only [silent_audio_stream, List.mem_map] at hf
    obtain ⟨i, _, rfl⟩ := hf
    exact ⟨rfl, rfl⟩

/-- C4 witness: the amended theorem applied at `seconds = 1`,
`frame_ms = 50`, `powf34 = fun _ => 0`. -/
theorem silent_timeline_floor_count_and_zero_witness :
    (silent_audio_stream none 1 50).frames.length = max 1 (1 * 1000 / 50) ∧
    ∀ u ∈ build_uniform_timeline (fun _ => 0)
        (silent_audio_stream none 1 50).frames 50,
      u.peak = 0 ∧ u.rms = 0 ∧ u.energy = 0 ∧ u.beat = 0 :=
  silent_timeline_floor_count_and_zero 1 50 (by decide) (by decide)
    (by norm_num) (fun _ => 0) rfl

/-! ## Asset resolver: path normalization (`asset_resolver.rs`) -/

/-- Split a character list on `'/'`, keeping empty segments (the raw
split underlying `Path::components`). -/
def splitSlash : List Char → List (List Char)
  | [] => [[]]
  | c :: rest =>
      if c = '/' then [] :: splitSlash rest
      else
        match splitSlash rest with
        | [] => [[c]]
        | s :: ss => (c :: s) :: ss

/-- The component walk of `normalize_rel_path`: empty segments (root,
duplicate or trailing separators) and `.` vanish, `..` pops, every other
segment is pushed (`PathBuf::push` / `PathBuf::pop`). -/
def normStep (acc : List (List Char)) (seg : List Char) : List (List Char) :=
  if seg = [] then acc
  else if seg = ['.'] then acc
  else if seg = ['.', '.'] then acc.dropLast
  else acc ++ [seg]

/-- Fold the component walk over all segments, starting from an empty
`PathBuf`. -/
def normComponents (segs : List (List Char)) : List (List Char) :=
  segs.foldl normStep []

/-- Join path segments with `'/'` (`PathBuf::to_string_lossy` for relative
paths built by repeated `push`). -/
def joinSegs : List (List Char) → List Char
  | [] => []
  | s :: ss =>
      match ss with
      | [] => s
      | _ :: _ => s ++ '/' :: joinSegs ss

/-- Rust `str::replace('\\', "/")` at character level. -/
def replaceBackslash (l : List Char) : List Char :=
  l.map (fun c => if c = '\\' then '/' else c)

/-- `normalize_rel_path` from `asset_resolver.rs`. -/
def normalize_rel_path (path : String) : Option String :=
  let raw := replaceBackslash (trimChars path.data)
  if raw = [] then none
  else
    let out := normComponents (splitSlash raw)
    let s := replaceBackslash (joinSegs out)
    if s = [] then none else some ⟨s⟩

/-- Splitting a slash-free list yields that single segment. -/
theorem splitSlash_no_slash (l : List Char) (h : '/' ∉ l) :
    splitSlash l = [l] := by
  induction l with
  | nil => rfl
  | cons c rest ih =>
      have hc : ¬(c = '/') := fun hc => h (hc ▸ List.mem_cons_self c rest)
      have hrest : '/' ∉ rest := fun hm => h (List.mem_cons_of_mem c hm)
      simp [splitSlash, hc, ih hrest]

/-- Splitting distributes over a separator after a slash-free prefix. -/
theorem splitSlash_append_slash (s t : List Char) (h : '/' ∉ s) :
    splitSlash (s ++ '/' :: t) = s :: splitSlash t := by
  induction s with
  | nil => simp [splitSlash]
  | cons c rest ih =>
      have hc : ¬(c = '/') := fun hc => h (hc ▸ List.mem_cons_self c rest)
      have hrest : '/' ∉ rest := fun hm => h (List.mem_cons_of_mem c hm)
      have := ih hrest
      simp only [List.cons_append, splitSlash, hc, if_false, this]
      cases ht : splitSlash t <;> simp [this, ht]

/-- Segments produced by `splitSlash` contain no slash. -/
theorem splitSlash_seg_no_slash (l : List Char) :
    ∀ seg ∈ splitSlash l, '/' ∉ seg := by
  induction l with
  | nil => intro seg hs; simp [splitSlash] at hs; simp [hs]
  | cons c rest ih =>
      intro seg hs
      by_cases hc : c = '/'
      · simp [splitSlash, hc] at hs
        rcases hs with rfl | hs
        · simp
        · exact ih seg hs
      · simp only [splitSlash, hc, if_false] at hs
        cases hrest : splitSlash rest with
        | nil =>
            rw [hrest] at hs; simp at hs; subst hs
            intro hm
            simp at hm
            exact hc hm.symm
        | cons s ss =>
            rw [hrest] at hs
            simp only [List.mem_cons] at hs
            rcases hs with rfl | hs
            · intro hm
              rcases List.mem_cons.mp hm with rfl | hm
              · exact hc rfl
              · exact ih s (hrest ▸ List.mem_cons_self s ss) hm
            · exact ih seg (hrest ▸ List.mem_cons_of_mem s hs)

/-- Characters of `splitSlash` segments come from the input list. -/
theorem splitSlash_seg_subset (l : List Char) :
    ∀ seg ∈ splitSlash l, ∀ c ∈ seg, c ∈ l := by
  induction l with
  | nil => intro seg hs; simp [splitSlash] at hs; simp [hs]
  | cons a rest ih =>
      intro seg hs c hcm
      by_cases ha : a = '/'
      · simp [splitSlash, ha] at hs
        rcases hs with rfl | hs
        · simp at hcm
        · exact List.mem_cons_of_mem a (ih seg hs c hcm)
      · simp only [splitSlash, ha, if_false] at hs
        cases hrest : splitSlash rest with
        | nil =>
            rw [hrest] at hs; simp at hs; subst hs
            simp at hcm; subst hcm
            exact List.mem_cons_self _ _
        | cons s ss =>
            rw [hrest] at hs
            simp only [List.mem_cons] at hs
            rcases hs with rfl | hs
            · rcases List.mem_cons.mp hcm with rfl | hm
              · exact List.mem_cons_self c rest
              · exact List.mem_cons_of_mem a
                  (ih s (hrest ▸ List.mem_cons_self s ss) c hm)
            · exact List.mem_cons_of_mem a
                (ih seg (hrest ▸ List.mem_cons_of_mem s hs) c hcm)

/-- Joining then splitting normal (nonempty, slash-free) segments is the
identity. -/
theorem splitSlash_joinSegs (segs : List (List Char)) (hne : segs ≠ [])
    (h : ∀ seg ∈ segs, seg ≠ [] ∧ '/' ∉ seg) :
    splitSlash (joinSegs segs) = segs := by
  induction segs with
  | nil => exact absurd rfl hne
  | cons s ss ih =>
      cases ss with
      | nil =>
          have := (h s (List.mem_cons_self s [])).2
          simp [joinSegs, splitSlash_no_slash s this]
      | cons t ts =>
          have hs := h s (List.mem_cons_self s _)
          have hrec := ih (by simp)
            (fun seg hseg => h seg (List.mem_cons_of_mem s hseg))
          have hj : joinSegs (s :: t :: ts) = s ++ '/' :: joinSegs (t :: ts) := rfl
          rw [hj, splitSlash_append_slash s _ hs.2, hrec]

/-- A segment the component walk may emit: nonempty, not `.` or `..`, and
free of separators. -/
def GoodSeg (seg : List Char) : Prop :=
  seg ≠ [] ∧ seg ≠ ['.'] ∧ seg ≠ ['.', '.'] ∧ '/' ∉ seg ∧ '\\' ∉ seg

/-- The component walk only ever emits good segments. -/
theorem foldl_normStep_good (segs : List (List Char)) :
    ∀ acc, (∀ x ∈ acc, GoodSeg x) →
      (∀ seg ∈ segs, '/' ∉ seg ∧ '\\' ∉ seg) →
      ∀ x ∈ List.foldl normStep acc segs, GoodSeg x := by
  induction segs with
  | nil => intro acc hacc _ x hx; exact hacc x hx
  | cons seg rest ih =>
      intro acc hacc hsegs
      have hseg := hsegs seg (List.mem_cons_self seg rest)
      have hrest := fun t ht => hsegs t (List.mem_cons_of_mem seg ht)
      simp only [List.foldl_cons]
      apply ih _ _ hrest
      intro x hx
      unfold normStep at hx
      by_cases h0 : seg = []
      · rw [if_pos h0] at hx; exact hacc x hx
      rw [if_neg h0] at hx
      by_cases h1 : seg = ['.']
      · rw [if_pos h1] at hx; exact hacc x hx
      rw [if_neg h1] at hx
      by_cases h2 : seg = ['.', '.']
      · rw [if_pos h2] at hx
        exact hacc x ((List.dropLast_sublist acc).subset hx)
      rw [if_neg h2] at hx
      rcases List.mem_append.mp hx with hx | hx
      · exact hacc x hx
      · rcases List.mem_singleton.mp hx with rfl
        exact ⟨h0, h1, h2, hseg.1, hseg.2⟩

/-- On a list of good segments the component walk appends them all. -/
theorem foldl_normStep_eq_append (segs : List (List Char))
    (h : ∀ seg ∈ segs, seg ≠ [] ∧ seg ≠ ['.'] ∧ seg ≠ ['.', '.']) :
    ∀ acc, List.foldl normStep acc segs = acc ++ segs := by
  induction segs with
  | nil => intro acc; simp
  | cons seg rest ih =>
      intro acc
      have hseg := h seg (List.mem_cons_self seg rest)
      have hstep : normStep acc seg = acc ++ [seg] := by
        unfold normStep
        rw [if_neg hseg.1, if_neg hseg.2.1, if_neg hseg.2.2]
      simp only [List.foldl_cons, hstep,
        ih (fun t ht => h t (List.mem_cons_of_mem seg ht))]
      simp

/-- A join headed by a nonempty segment is nonempty. -/
theorem joinSegs_ne_nil (s : List Char) (ss : List (List Char))
    (h : s ≠ []) : joinSegs (s :: ss) ≠ [] := by
  cases ss with
  | nil => simpa [joinSegs] using h
  | cons t ts =>
      have : joinSegs (s :: t :: ts) = s ++ '/' :: joinSegs (t :: ts) := rfl
      rw [this]
      simp [h]

/-- Characters of a join come from the segments or are the separator. -/
theorem joinSegs_mem (segs : List (List Char)) (c : Char)
    (h : c ∈ joinSegs segs) : (∃ s ∈ segs, c ∈ s) ∨ c = '/' := by
  induction segs with
  | nil => simp [joinSegs] at h
  | cons s ss ih =>
      cases ss with
      | nil =>
          simp only [joinSegs] at h
          exact Or.inl ⟨s, List.mem_cons_self s [], h⟩
      | cons t ts =>
          have he : joinSegs (s :: t :: ts) = s ++ '/' :: joinSegs (t :: ts) := rfl
          rw [he] at h
          rcases List.mem_append.mp h with h | h
          · exact Or.inl ⟨s, List.mem_cons_self s _, h⟩
          · rcases List.mem_cons.mp h with rfl | h
            · exact Or.inr rfl
            · rcases ih h with ⟨u, hu, hcu⟩ | rfl
              · exact Or.inl ⟨u, List.mem_cons_of_mem s hu, hcu⟩
              · exact Or.inr rfl

/-- `replaceBackslash` leaves no backslash behind. -/
theorem replaceBackslash_no_bs (l : List Char) : '\\' ∉ replaceBackslash l := by
  intro h
  rcases List.mem_map.mp h with ⟨c, _, hc⟩
  by_cases hb : c = '\\' <;> simp [hb] at hc

/-- `replaceBackslash` is the identity on backslash-free lists. -/
theorem replaceBackslash_eq_self (l : List Char) (h : '\\' ∉ l) :
    replaceBackslash l = l := by
  unfold replaceBackslash
  conv_rhs => rw [← List.map_id l]
  apply List.map_congr_left
  intro c hc
  have : ¬(c = '\\') := fun hb => h (hb ▸ hc)
  simp [this]

/-- Anatomy of a successful normalization: the result is the join of a
nonempty list of good segments, and splits back into exactly them. -/
theorem normalize_rel_path_some_facts (s r : String)
    (h : normalize_rel_path s = some r) :
    ∃ out, out ≠ [] ∧ (∀ x ∈ out, GoodSeg x) ∧
      r.data = joinSegs out ∧ splitSlash r.data = out := by
  unfold normalize_rel_path at h
  by_cases hraw : replaceBackslash (trimChars s.data) = []
  · rw [if_pos hraw] at h; exact absurd h (by simp)
  rw [if_neg hraw] at h
  simp only [] at h
  set raw := replaceBackslash (trimChars s.data) with hrawdef
  set out := normComponents (splitSlash raw) with houtdef
  by_cases hs2 : replaceBackslash (joinSegs out) = []
  · rw [if_pos hs2] at h; exact absurd h (by simp)
  rw [if_neg hs2] at h
  have hr : r = ⟨replaceBackslash (joinSegs out)⟩ := by
    cases h; rfl
  have hgood : ∀ x ∈ out, GoodSeg x := by
    rw [houtdef]
    apply foldl_normStep_good _ _ (by intro x hx; simp at hx)
    intro seg hseg
    refine ⟨splitSlash_seg_no_slash raw seg hseg, ?_⟩
    intro hbs
    exact replaceBackslash_no_bs (trimChars s.data)
      (splitSlash_seg_subset raw seg hseg '\\' hbs)
  have hnobs : '\\' ∉ joinSegs out := by
    intro hbs
    rcases joinSegs_mem out '\\' hbs with ⟨seg, hseg, hmem⟩ | hq
    · exact (hgood seg hseg).2.2.2.2 hmem
    · exact absurd hq (by decide)
  have hdata : r.data = joinSegs out := by
    rw [hr]
    exact replaceBackslash_eq_self _ hnobs
  have hone : out ≠ [] := by
    intro hnil
    rw [hnil] at hs2
    exact hs2 (by simp [joinSegs, replaceBackslash])
  refine ⟨out, hone, hgood, hdata, ?_⟩
  rw [hdata]
  exact splitSlash_joinSegs out hone
    (fun seg hseg => ⟨(hgood seg hseg).1, (hgood seg hseg).2.2.2.1⟩)

/-- C8 counterexample: `normalize_rel_path` is not idempotent.  On input
`"a /"` it yields `"a "` (trailing space kept), but renormalizing `"a "`
trims the space and yields `"a"`. -/
theorem normalize_rel_path_not_idempotent :
    normalize_rel_path "a /" = some "a " ∧
    normalize_rel_path "a " = some "a" ∧
    some ("a" : String) ≠ some ("a " : String) := by
  refine ⟨?_, ?_, ?_⟩ <;> decide

/-- C8 (amended): every successful result of `normalize_rel_path` is a
nonempty slash-joined list of segments none of which is empty, `.` or
`..`; and normalization is idempotent on every result that is unchanged
by whitespace trimming (the counterexample shows trailing whitespace in
the result breaks idempotence in general). -/
theorem normalize_rel_path_normal_form :
    (∀ s r, normalize_rel_path s = some r →
      r ≠ "" ∧ ∀ seg ∈ splitSlash r.data,
        seg ≠ [] ∧ seg ≠ ['.'] ∧ seg ≠ ['.', '.']) ∧
    (∀ s r, normalize_rel_path s = some r → trimChars r.data = r.data →
      normalize_rel_path r = some r) := by
  constructor
  · intro s r h
    obtain ⟨out, hne, hgood, hdata, hsplit⟩ := normalize_rel_path_some_facts s r h
    constructor
    · intro hempty
      obtain ⟨x, xs, rfl⟩ := List.exists_cons_of_ne_nil hne
      have := joinSegs_ne_nil x xs (hgood x (List.mem_cons_self x xs)).1
      rw [← hdata] at this
      rw [hempty] at this
      exact this rfl
    · intro seg hseg
      rw [hsplit] at hseg
      exact ⟨(hgood seg hseg).1, (hgood seg hseg).2.1, (hgood seg hseg).2.2.1⟩
  · intro s r h htrim
    obtain ⟨out, hne, hgood, hdata, hsplit⟩ := normalize_rel_path_some_facts s r h
    have hnobs : '\\' ∉ r.data := by
      rw [hdata]
      intro hbs
      rcases joinSegs_mem out '\\' hbs with ⟨seg, hseg, hmem⟩ | hq
      · exact (hgood seg hseg).2.2.2.2 hmem
      · exact absurd hq (by decide)
    have hrne : r.data ≠ [] := by
      obtain ⟨x, xs, rfl⟩ := List.exists_cons_of_ne_nil hne
      rw [hdata]
      exact joinSegs_ne_nil x xs (hgood x (List.mem_cons_self x xs)).1
    unfold normalize_rel_path
    rw [htrim, replaceBackslash_eq_self _ hnobs, if_neg hrne]
    simp only [hsplit]
    have hcomps : normComponents out = out := by
      unfold normComponents
      rw [foldl_normStep_eq_append out
        (fun seg hseg => ⟨(hgood seg hseg).1, (hgood seg hseg).2.1,
          (hgood seg hseg).2.2.1⟩) []]
      simp
    rw [hcomps, replaceBackslash_eq_self _ (hdata ▸ hnobs), ← hdata, if_neg hrne]

/-- C8 witness: the amended theorem applied at the concrete input
`"./a/b/../c.json"`, whose normalization `"a/c.json"` survives both
checks and renormalizes to itself. -/
theorem normalize_rel_path_normal_form_witness :
    (("a/c.json" : String) ≠ "" ∧ ∀ seg ∈ splitSlash ("a/c.json" : String).data,
      seg ≠ [] ∧ seg ≠ ['.'] ∧ seg ≠ ['.', '.']) ∧
    normalize_rel_path "a/c.json" = some "a/c.json" :=
  ⟨normalize_rel_path_normal_form.1 "./a/b/../c.json" "a/c.json" (by decide),
   normalize_rel_path_normal_form.2 "./a/b/../c.json" "a/c.json"
     (by decide) (by decide)⟩

/-! ## Texture decoder: fallback signature scan (`tex_payload.rs`) -/

/-- First index at which `needle` is a prefix of the remaining list
(`windows(n).position` in `find_subslice`; also `str::find` for the
evaluators). -/
def findSubsliceAux {α : Type} [DecidableEq α] (needle : List α) :
    List α → Option Nat
  | [] => none
  | a :: rest =>
      if needle.isPrefixOf (a :: rest) then some 0
      else (findSubsliceAux needle rest).map (· + 1)

/-- `find_subslice` from `tex_payload.rs`. -/
def find_subslice {α : Type} [DecidableEq α] (haystack needle : List α) :
    Option Nat :=
  if needle = [] ∨ haystack.length < needle.length then none
  else findSubsliceAux needle haystack

/-- Byte slice `l[s..t]`. -/
def listSlice (l : List Nat) (s t : Nat) : List Nat := (l.drop s).take (t - s)

/-- The PNG file signature. -/
def pngSig : List Nat := [137, 80, 78, 71, 13, 10, 26, 10]

/-- The ASCII bytes of the `IEND` chunk marker. -/
def iendMarker : List Nat := [73, 69, 78, 68]

/-- The JPEG SOI signature. -/
def jpgSig : List Nat := [255, 216, 255]

/-- ASCII `GIF87a`. -/
def gif87Sig : List Nat := [71, 73, 70, 56, 55, 97]

/-- ASCII `GIF89a`. -/
def gif89Sig : List Nat := [71, 73, 70, 56, 57, 97]

/-- The WebM EBML signature. -/
def webmSig : List Nat := [26, 69, 223, 163]

/-- ASCII `RIFF`. -/
def riffSig : List Nat := [82, 73, 70, 70]

/-- ASCII `WEBP`. -/
def webpTag : List Nat := [87, 69, 66, 80]

/-- ASCII `ftyp`. -/
def ftypTag : List Nat := [102, 116, 121, 112]

/-- The `picked` computation of `extract_payload_by_signature`: scan the
raw file bytes for embedded media signatures, PNG first (trimmed at
IEND + 4 CRC bytes), then JPEG, GIF89a/87a, WebM, WebP (RIFF with a WEBP
tag within 64 bytes), and finally an MP4 `ftyp` probe at offset 4. -/
def extract_payload_by_signature (bytes : List Nat) :
    Option (Nat × String × List Nat) :=
  match find_subslice bytes pngSig with
  | some i =>
      match find_subslice (bytes.drop i) iendMarker with
      | some e =>
          let endPos := i + e + iendMarker.length + 4
          some (i, "png", listSlice bytes i (min endPos bytes.length))
      | none => some (i, "png", bytes.drop i)
  | none =>
      match find_subslice bytes jpgSig with
      | some i => some (i, "jpg", bytes.drop i)
      | none =>
          match (find_subslice bytes gif89Sig).orElse
              (fun _ => find_subslice bytes gif87Sig) with
          | some i => some (i, "gif", bytes.drop i)
          | none =>
              match find_subslice bytes webmSig with
              | some i => some (i, "webm", bytes.drop i)
              | none =>
                  let riffPick :=
                    match find_subslice bytes riffSig with
                    | some i =>
                        if (find_subslice
                            (listSlice bytes i (min (i + 64) bytes.length))
                            webpTag).isSome then
                          some (i, ("webp" : String), bytes.drop i)
                        else none
                    | none => none
                  riffPick.orElse (fun _ =>
                    ((List.range (bytes.length - 12)).find?
                        (fun i => listSlice bytes (i + 4) (i + 8) = ftypTag)).map
                      (fun i => (i, "mp4", bytes.drop i)))

/-- `findSubsliceAux` finds the least index where the needle is a prefix
of the rest. -/
theorem findSubsliceAux_eq_some (needle : List Nat) (hne : needle ≠ []) :
    ∀ (hay : List Nat) (i : Nat),
      needle.isPrefixOf (hay.drop i) = true →
      (∀ j < i, needle.isPrefixOf (hay.drop j) = false) →
      findSubsliceAux needle hay = some i := by
  intro hay
  induction hay with
  | nil =>
      intro i hpref _
      rw [List.drop_nil] at hpref
      rw [List.isPrefixOf_iff_prefix] at hpref
      exact absurd (List.prefix_nil.mp hpref) hne
  | cons a rest ih =>
      intro i hpref hmin
      cases i with
      | zero =>
          rw [List.drop_zero] at hpref
          simp [findSubsliceAux, hpref]
      | succ k =>
          have h0 : needle.isPrefixOf (a :: rest) = false := by
            have := hmin 0 (Nat.succ_pos k)
            simpa using this
          have hrec : findSubsliceAux needle rest = some k := by
            apply ih k
            · simpa using hpref
            · intro j hj
              have := hmin (j + 1) (Nat.succ_lt_succ hj)
              simpa using this
          simp [findSubsliceAux, h0, hrec]

/-- `find_subslice` finds the least index where the needle is a prefix of
the rest. -/
theorem find_subslice_eq_some (needle hay : List Nat) (i : Nat)
    (hne : needle ≠ [])
    (hpref : needle.isPrefixOf (hay.drop i) = true)
    (hmin : ∀ j < i, needle.isPrefixOf (hay.drop j) = false) :
    find_subslice hay needle = some i := by
  have hlen : needle.length ≤ hay.length := by
    rw [List.isPrefixOf_iff_prefix] at hpref
    calc needle.length ≤ (hay.drop i).length := hpref.length_le
      _ ≤ hay.length := by rw [List.length_drop]; exact Nat.sub_le _ _
  unfold find_subslice
  rw [if_neg (by push_neg; exact ⟨hne, hlen⟩)]
  exact findSubsliceAux_eq_some needle hne hay i hpref hmin

/-- C7 counterexample: when the arbitrary prefix itself contains the PNG
signature, the scan locks onto the earlier occurrence and returns the
prefix bytes too, not exactly the PNG. -/
theorem extract_payload_png_prefix_counterexample :
    extract_payload_by_signature
        (pngSig ++ (pngSig ++ [0, 0, 0, 0] ++ iendMarker ++ [9, 9, 9, 9])) =
      some (0, "png",
        pngSig ++ (pngSig ++ [0, 0, 0, 0] ++ iendMarker ++ [9, 9, 9, 9])) ∧
    pngSig ++ (pngSig ++ [0, 0, 0, 0] ++ iendMarker ++ [9, 9, 9, 9]) ≠
      pngSig ++ [0, 0, 0, 0] ++ iendMarker ++ [9, 9, 9, 9] := by
  constructor <;> decide

/-- C7 (amended): for an input `garbage ++ png ++ trailing` where the PNG
signature does not occur at any offset inside the garbage, the PNG starts
with the signature, and the `IEND` marker occurs in the PNG only as its
final chunk (followed by exactly the 4 CRC bytes that end the PNG), the
signature scan picks PNG, reports the garbage length as offset, and
returns exactly the PNG bytes. -/
theorem extract_payload_png_exact (g png t body crc : List Nat)
    (hstruct : png = body ++ iendMarker ++ crc)
    (hcrc : crc.length = 4)
    (hsig : pngSig.isPrefixOf png = true)
    (hnosig : ∀ j < g.length, pngSig.isPrefixOf ((g ++ (png ++ t)).drop j) = false)
    (hnoiend : ∀ j < body.length, iendMarker.isPrefixOf ((png ++ t).drop j) = false) :
    extract_payload_by_signature (g ++ (png ++ t)) =
      some (g.length, "png", png) := by
  have hdropg : (g ++ (png ++ t)).drop g.length = png ++ t := List.drop_left g (png ++ t)
  have hpnglen : png.length = body.length + 8 := by
    rw [hstruct]
    simp [iendMarker, hcrc]
  have hfind1 : find_subslice (g ++ (png ++ t)) pngSig = some g.length := by
    apply find_subslice_eq_some _ _ _ (by decide)
    · rw [hdropg, List.isPrefixOf_iff_prefix]
      rw [List.isPrefixOf_iff_prefix] at hsig
      exact hsig.trans (List.prefix_append png t)
    · exact hnosig
  have hdropbody : (png ++ t).drop body.length = iendMarker ++ (crc ++ t) := by
    rw [hstruct]
    have : body ++ iendMarker ++ crc ++ t = body ++ (iendMarker ++ (crc ++ t)) := by
      simp [List.append_assoc]
    rw [this, List.drop_left]
  have hfind2 : find_subslice ((g ++ (png ++ t)).drop g.length) iendMarker =
      some body.length := by
    rw [hdropg]
    apply find_subslice_eq_some _ _ _ (by decide)
    · rw [hdropbody, List.isPrefixOf_iff_prefix]
      exact List.prefix_append iendMarker (crc ++ t)
    · exact hnoiend
  have hlen : (g ++ (png ++ t)).length = g.length + png.length + t.length := by
    simp [List.length_append]
    omega
  have hendpos : g.length + body.length + iendMarker.length + 4 =
      g.length + png.length := by
    simp [iendMarker, hpnglen]
    omega
  have hmin : min (g.length + body.length + iendMarker.length + 4)
      (g ++ (png ++ t)).length = g.length + png.length := by
    rw [hendpos, hlen]
    omega
  have hslice : listSlice (g ++ (png ++ t)) g.length (g.length + png.length) = png := by
    unfold listSlice
    rw [hdropg]
    have : g.length + png.length - g.length = png.length := by omega
    rw [this, List.take_left]
  unfold extract_payload_by_signature
  simp only [hfind1, hfind2, hmin, hslice]

/-- C7 witness: the amended theorem at a concrete 3-byte garbage prefix,
a 20-byte minimal PNG and one trailing byte. -/
theorem extract_payload_png_exact_witness :
    extract_payload_by_signature
        ([1, 2, 3] ++ ((pngSig ++ [0, 0, 0, 0] ++ iendMarker ++ [9, 9, 9, 9]) ++ [7])) =
      some (3, "png", pngSig ++ [0, 0, 0, 0] ++ iendMarker ++ [9, 9, 9, 9]) := by
  have h := extract_payload_png_exact [1, 2, 3]
    (pngSig ++ [0, 0, 0, 0] ++ iendMarker ++ [9, 9, 9, 9]) [7]
    (pngSig ++ [0, 0, 0, 0]) [9, 9, 9, 9]
    (by decide) (by decide) (by decide) (by decide) (by decide)
  simpa using h

/-! ## Container reader (`scene_pkg.rs`) -/

/-- An archive entry (`ScenePkgEntry`); the filename is kept as its UTF-8
bytes. -/
structure ScenePkgEntry where
  filename : List Nat
  offset : Nat
  length : Nat
  deriving DecidableEq, Repr

/-- A parsed archive (`ScenePkg`, minus the source path). -/
structure ScenePkg where
  base_offset : Nat
  entries : List ScenePkgEntry
  deriving DecidableEq, Repr

/-- Little-endian `u32` read (`read_u32_le`): consumes 4 bytes. -/
def readU32le : List Nat → Option (Nat × List Nat)
  | b0 :: b1 :: b2 :: b3 :: rest =>
      some (b0 + 256 * (b1 + 256 * (b2 + 256 * b3)), rest)
  | _ => none

/-- `Read::read_exact` into an `n`-byte buffer. -/
def readBytes (n : Nat) (l : List Nat) : Option (List Nat × List Nat) :=
  if n ≤ l.length then some (l.take n, l.drop n) else none

/-- UTF-8 continuation byte. -/
def isCont (b : Nat) : Bool := 128 ≤ b ∧ b ≤ 191

/-- RFC 3629 UTF-8 validity (the check `String::from_utf8` performs):
rejects overlong encodings, surrogates and values above U+10FFFF. -/
def validUtf8 : List Nat → Bool
  | [] => true
  | b :: rest =>
      if b ≤ 127 then validUtf8 rest
      else if 194 ≤ b ∧ b ≤ 223 then
        match rest with
        | b2 :: r => isCont b2 && validUtf8 r
        | [] => false
      else if b = 224 then
        match rest with
        | b2 :: b3 :: r =>
            (decide (160 ≤ b2) && decide (b2 ≤ 191)) && isCont b3 && validUtf8 r
        | _ => false
      else if 225 ≤ b ∧ b ≤ 236 then
        match rest with
        | b2 :: b3 :: r => isCont b2 && isCont b3 && validUtf8 r
        | _ => false
      else if b = 237 then
        match rest with
        | b2 :: b3 :: r =>
            (decide (128 ≤ b2) && decide (b2 ≤ 159)) && isCont b3 && validUtf8 r
        | _ => false
      else if 238 ≤ b ∧ b ≤ 239 then
        match rest with
        | b2 :: b3 :: r => isCont b2 && isCont b3 && validUtf8 r
        | _ => false
      else if b = 240 then
        match rest with
        | b2 :: b3 :: b4 :: r =>
            (decide (144 ≤ b2) && decide (b2 ≤ 191)) && isCont b3 && isCont b4 &&
              validUtf8 r
        | _ => false
      else if 241 ≤ b ∧ b ≤ 243 then
        match rest with
        | b2 :: b3 :: b4 :: r => isCont b2 && isCont b3 && isCont b4 && validUtf8 r
        | _ => false
      else if b = 244 then
        match rest with
        | b2 :: b3 :: b4 :: r =>
            (decide (128 ≤ b2) && decide (b2 ≤ 143)) && isCont b3 && isCont b4 &&
              validUtf8 r
        | _ => false
      else false

/-- `read_sized_string`: u32 length prefix, then that many bytes, which
must be valid UTF-8. -/
def readSizedString (l : List Nat) : Option (List Nat × List Nat) :=
  match readU32le l with
  | none => none
  | some (len, rest) =>
      match readBytes len rest with
      | none => none
      | some (s, rest2) => if validUtf8 s then some (s, rest2) else none

/-- The ASCII bytes of `PKGV`. -/
def pkgvMagic : List Nat := [80, 75, 71, 86]

/-- The entry-table loop of `parse_scene_pkg`: `count` records of
(sized filename, u32 offset, u32 length).  No bounds are checked. -/
def parseEntries : Nat → List Nat → Option (List ScenePkgEntry × List Nat)
  | 0, l => some ([], l)
  | n + 1, l =>
      match readSizedString l with
      | none => none
      | some (name, l1) =>
          match readU32le l1 with
          | none => none
          | some (off, l2) =>
              match readU32le l2 with
              | none => none
              | some (len, l3) =>
                  match parseEntries n l3 with
                  | none => none
                  | some (es, l4) => some (⟨name, off, len⟩ :: es, l4)

/-- `parse_scene_pkg` over the file bytes: sized header string that must
start with `PKGV`, u32 file count, entry table; `base_offset` is the
stream position after the table. -/
def parse_scene_pkg (file : List Nat) : Option ScenePkg :=
  match readSizedString file with
  | none => none
  | some (header, r1) =>
      if pkgvMagic.isPrefixOf header then
        match readU32le r1 with
        | none => none
        | some (count, r2) =>
            match parseEntries count r2 with
            | none => none
            | some (entries, r3) => some ⟨file.length - r3.length, entries⟩
      else none

/-- Per-byte ASCII lowercase. -/
def byteAsciiLower (b : Nat) : Nat := if 65 ≤ b ∧ b ≤ 90 then b + 32 else b

/-- `str::eq_ignore_ascii_case` on UTF-8 bytes. -/
def bytesEqIgnoreAsciiCase (a b : List Nat) : Bool :=
  a.map byteAsciiLower = b.map byteAsciiLower

/-- `find_entry`: first entry whose filename matches case-insensitively. -/
def find_entry (pkg : ScenePkg) (name : List Nat) : Option ScenePkgEntry :=
  pkg.entries.find? (fun e => bytesEqIgnoreAsciiCase e.filename name)

/-- Little-endian encoding of a `u32`. -/
def u32Bytes (n : Nat) : List Nat :=
  [n % 256, n / 256 % 256, n / 65536 % 256, n / 16777216 % 256]

/-- Length-prefixed string encoding. -/
def sizedString (s : List Nat) : List Nat := u32Bytes s.length ++ s

/-- On-disk encoding of one entry record. -/
def encodeEntry (e : ScenePkgEntry) : List Nat :=
  sizedString e.filename ++ u32Bytes e.offset ++ u32Bytes e.length

/-- On-disk encoding of a whole archive: header, count, entry table, then
the data block (whether or not the entries point inside it). -/
def encodePkg (header : List Nat) (entries : List ScenePkgEntry)
    (data : List Nat) : List Nat :=
  sizedString header ++ u32Bytes entries.length ++
    (entries.map encodeEntry).flatten ++ data

/-- Reading back a little-endian encoded `u32`. -/
theorem readU32le_u32Bytes (n : Nat) (h : n < 2 ^ 32) (rest : List Nat) :
    readU32le (u32Bytes n ++ rest) = some (n, rest) := by
  simp only [u32Bytes, List.cons_append, List.nil_append, readU32le,
    Option.some.injEq, Prod.mk.injEq]
  exact ⟨by omega, trivial⟩

/-- Reading back a block of bytes of known length. -/
theorem readBytes_append (s rest : List Nat) :
    readBytes s.length (s ++ rest) = some (s, rest) := by
  unfold readBytes
  rw [if_pos (by simp)]
  rw [List.take_left, List.drop_left]

/-- Reading back a sized string. -/
theorem readSizedString_encode (s rest : List Nat) (hlen : s.length < 2 ^ 32)
    (hv : validUtf8 s = true) :
    readSizedString (sizedString s ++ rest) = some (s, rest) := by
  unfold readSizedString sizedString
  rw [List.append_assoc]
  simp only [readU32le_u32Bytes _ hlen, readBytes_append, hv, if_true]

/-- Reading back an encoded entry table: no relationship between the
entries and the data block is required. -/
theorem parseEntries_encode (entries : List ScenePkgEntry) (data : List Nat)
    (h : ∀ e ∈ entries, validUtf8 e.filename = true ∧
      e.filename.length < 2 ^ 32 ∧ e.offset < 2 ^ 32 ∧ e.length < 2 ^ 32) :
    parseEntries entries.length ((entries.map encodeEntry).flatten ++ data) =
      some (entries, data) := by
  induction entries with
  | nil => simp [parseEntries]
  | cons e es ih =>
      obtain ⟨hv, hn, ho, hl⟩ := h e (List.mem_cons_self e es)
      have hrest := ih (fun x hx => h x (List.mem_cons_of_mem e hx))
      simp only [List.map_cons, List.flatten_cons, List.length_cons]
      unfold parseEntries
      simp only [encodeEntry, List.append_assoc]
      simp only [readSizedString_encode _ _ hn hv, readU32le_u32Bytes _ ho,
        readU32le_u32Bytes _ hl, hrest]

/-- C9: archive parsing validates only the header prefix, string UTF-8
and stream availability — any representable entry table parses back
exactly, regardless of whether the (offset, length) ranges fit the data
block, overlap, or repeat filenames; and `find_entry` returns the first
case-insensitive match in declaration order. -/
theorem parse_scene_pkg_unvalidated :
    (∀ header entries data,
      validUtf8 header = true →
      pkgvMagic.isPrefixOf header = true →
      header.length < 2 ^ 32 →
      entries.length < 2 ^ 32 →
      (∀ e ∈ entries, validUtf8 e.filename = true ∧
        e.filename.length < 2 ^ 32 ∧ e.offset < 2 ^ 32 ∧ e.length < 2 ^ 32) →
      parse_scene_pkg (encodePkg header entries data) =
        some ⟨(encodePkg header entries data).length - data.length, entries⟩) ∧
    (∀ base pre e rest name,
      (∀ x ∈ pre, bytesEqIgnoreAsciiCase x.filename name = false) →
      bytesEqIgnoreAsciiCase e.filename name = true →
      find_entry ⟨base, pre ++ e :: rest⟩ name = some e) := by
  constructor
  · intro header entries data hv hmagic hhlen hclen hent
    unfold parse_scene_pkg encodePkg
    simp only [List.append_assoc]
    simp only [readSizedString_encode _ _ hhlen hv, hmagic, if_true,
      readU32le_u32Bytes _ hclen, parseEntries_encode entries data hent]
  · intro base pre e rest name hpre he
    induction pre with
    | nil =>
        unfold find_entry
        simp [List.find?, he]
    | cons x xs ih =>
        have hx := hpre x (List.mem_cons_self x xs)
        unfold find_entry at ih ⊢
        simp only [List.cons_append]
        rw [List.find?_cons_of_neg _ (by simp [hx])]
        exact ih (fun y hy => hpre y (List.mem_cons_of_mem x hy))

/-- C9 witness: a concrete archive whose two entries share the filename
`a.txt` up to ASCII case and whose (offset, length) ranges lie far outside
the 2-byte data block; parsing succeeds and lookup returns the first
declared entry. -/
theorem parse_scene_pkg_unvalidated_witness :
    parse_scene_pkg
        (encodePkg [80, 75, 71, 86, 48, 48, 48, 49]
          [⟨[65, 46, 84, 88, 84], 4000000000, 4000000000⟩,
           ⟨[97, 46, 116, 120, 116], 0, 3⟩] [65, 66]) =
      some ⟨(encodePkg [80, 75, 71, 86, 48, 48, 48, 49]
          [⟨[65, 46, 84, 88, 84], 4000000000, 4000000000⟩,
           ⟨[97, 46, 116, 120, 116], 0, 3⟩] [65, 66]).length - 2,
        [⟨[65, 46, 84, 88, 84], 4000000000, 4000000000⟩,
         ⟨[97, 46, 116, 120, 116], 0, 3⟩]⟩ ∧
    find_entry ⟨30, [⟨[65, 46, 84, 88, 84], 4000000000, 4000000000⟩,
        ⟨[97, 46, 116, 120, 116], 0, 3⟩]⟩ [65, 46, 116, 120, 116] =
      some ⟨[65, 46, 84, 88, 84], 4000000000, 4000000000⟩ :=
  ⟨parse_scene_pkg_unvalidated.1 [80, 75, 71, 86, 48, 48, 48, 49]
      [⟨[65, 46, 84, 88, 84], 4000000000, 4000000000⟩,
       ⟨[97, 46, 116, 120, 116], 0, 3⟩] [65, 66]
      (by decide) (by decide) (by decide) (by decide) (by decide),
   parse_scene_pkg_unvalidated.2 30 []
      ⟨[65, 46, 84, 88, 84], 4000000000, 4000000000⟩
      [⟨[97, 46, 116, 120, 116], 0, 3⟩] [65, 46, 116, 120, 116]
      (by intro x hx; simp at hx) (by decide)⟩

/-! ## Number parsing and shared helpers for the evaluators -/

/-- ASCII digit test. -/
def isAsciiDigit (c : Char) : Bool := '0' ≤ c ∧ c ≤ '9'

/-- Decimal digits to a natural number. -/
def digitsToNat (ds : List Char) : Nat :=
  ds.foldl (fun acc c => acc * 10 + (c.toNat - 48)) 0

/-- Model of `str::parse::<f64>` (and `f32`): optional sign, decimal
digits with optional fraction, optional exponent.  Exact rational
arithmetic stands in for IEEE rounding; non-finite spellings (`inf`,
`NaN`) are not modelled — no claim depends on them. -/
def parseQChars (l : List Char) : Option ℚ :=
  let sgn : ℚ × List Char :=
    match l with
    | '+' :: r => (1, r)
    | '-' :: r => (-1, r)
    | _ => (1, l)
  let l1 := sgn.2
  let intPart := l1.takeWhile isAsciiDigit
  let r2 := l1.dropWhile isAsciiDigit
  let fracSplit : List Char × List Char :=
    match r2 with
    | '.' :: r => (r.takeWhile isAsciiDigit, r.dropWhile isAsciiDigit)
    | _ => ([], r2)
  let fracPart := fracSplit.1
  let r3 := fracSplit.2
  if intPart = [] ∧ fracPart = [] then none
  else
    let mantissa : ℚ :=
      (digitsToNat intPart : ℚ) + (digitsToNat fracPart : ℚ) / 10 ^ fracPart.length
    match r3 with
    | [] => some (sgn.1 * mantissa)
    | e :: r4 =>
        if e = 'e' ∨ e = 'E' then
          let esgn : Bool × List Char :=
            match r4 with
            | '+' :: r => (true, r)
            | '-' :: r => (false, r)
            | _ => (true, r4)
          let eDigits := esgn.2.takeWhile isAsciiDigit
          let r6 := esgn.2.dropWhile isAsciiDigit
          if eDigits = [] ∨ r6 ≠ [] then none
          else
            let ex := digitsToNat eDigits
            some (sgn.1 * mantissa *
              (if esgn.1 then (10 ^ ex : ℚ) else 1 / 10 ^ ex))
        else none

/-- Rust `str::parse::<f64>` on the string model. -/
def parseRustF64 (s : String) : Option ℚ := parseQChars s.data

/-- serde `Number::to_string`.  Integral numbers render exactly; the
decimal rendering of non-integral floats is abstracted as
`num/den` (reachable only when a string helper or loose equality is
applied to a non-integral number). -/
def qToString (q : ℚ) : String :=
  if q.den = 1 then toString q.num else toString q.num ++ "/" ++ toString q.den

/-- The user property map (`BTreeMap<String, Value>`): an association
list; all source insertions are insert-if-absent, so ordering is
first-wins. -/
abbrev UserMap := List (String × Json)

/-- `BTreeMap::get`. -/
def mapGet (m : UserMap) (k : String) : Option Json :=
  (m.find? (fun p => p.1 = k)).map (·.2)

/-- `BTreeMap::contains_key`. -/
def mapContains (m : UserMap) (k : String) : Bool := (mapGet m k).isSome

/-- Rust `str::trim_matches(c)`: strip every leading and trailing `c`. -/
def trimMatchesChar (c : Char) (l : List Char) : List Char :=
  ((l.dropWhile (· = c)).reverse.dropWhile (· = c)).reverse

/-- Rust `str::trim_end_matches(".value")`: repeatedly strip the suffix. -/
def stripSuffixAll (suffix : List Char) : Nat → List Char → List Char
  | 0, l => l
  | fuel + 1, l =>
      if suffix ≠ [] ∧ suffix.isSuffixOf l then
        stripSuffixAll suffix fuel (l.take (l.length - suffix.length))
      else l

/-- `trim_end_matches(".value")` as used on identifiers. -/
def trimEndMatchesValue (l : List Char) : List Char :=
  stripSuffixAll ".value".data l.length l

/-- Rust `str::contains(&str)` (substring containment). -/
def strContainsSub (l r : String) : Bool :=
  r.data = [] ∨ (find_subslice l.data r.data).isSome

/-! ## Visibility predicate evaluator (`scene_gpu_graph.rs`) -/

/-- `parse_visible_operand`: strip surrounding whitespace and parens, then
literal booleans, quoted strings, numbers, and finally user lookup with a
`.value` suffix stripped. -/
def parse_visible_operand (token : List Char) (users : UserMap) : Option Json :=
  let t := trimMatchesChar ')' (trimMatchesChar '(' (trimChars token))
  if t = [] then none
  else if strEqIgnoreCase ⟨t⟩ "true" then some (.bool true)
  else if strEqIgnoreCase ⟨t⟩ "false" then some (.bool false)
  else if (t.head? = some '\'' ∧ t.getLast? = some '\'') ∨
      (t.head? = some '"' ∧ t.getLast? = some '"') then
    some (.str ⟨(t.drop 1).dropLast⟩)
  else
    match parseQChars t with
    | some q => some (.num q)
    | none => mapGet users ⟨trimEndMatchesValue t⟩

/-- `value_as_f64`: numbers, numeric strings, booleans as 0/1. -/
def value_as_f64 : Json → Option ℚ
  | .num q => some q
  | .str s => parseRustF64 s
  | .bool b => some (if b then 1 else 0)
  | _ => none

/-- `value_as_str`: trimmed strings, rendered numbers, `true`/`false`. -/
def value_as_str : Json → Option String
  | .str s => some (rustTrim s)
  | .num n => some (qToString n)
  | .bool b => some (if b then "true" else "false")
  | _ => none

/-- `loosely_equal`: numeric comparison with `1e-6` tolerance when both
sides coerce to numbers, else string equality, else structural. -/
def loosely_equal (l r : Json) : Bool :=
  match value_as_f64 l, value_as_f64 r with
  | some a, some b => |a - b| < 1 / 1000000
  | _, _ =>
      match value_as_str l, value_as_str r with
      | some a, some b => a = b
      | _, _ => Json.beq l r

/-- The string-helper dispatch of `eval_visible_predicate`: the marker
list is scanned in order, and a marker only fires when the expression
ends in `)`. -/
def findHelper (e : List Char) : Option (Nat × Nat × String) :=
  if strEndsWith ⟨e⟩ ")" then
    match find_subslice e ".contains(".data with
    | some idx => some (idx, 10, "contains")
    | none =>
        match find_subslice e ".startsWith(".data with
        | some idx => some (idx, 12, "startswith")
        | none =>
            match find_subslice e ".startswith(".data with
            | some idx => some (idx, 12, "startswith")
            | none =>
                match find_subslice e ".endsWith(".data with
                | some idx => some (idx, 10, "endswith")
                | none =>
                    match find_subslice e ".endswith(".data with
                    | some idx => some (idx, 10, "endswith")
                    | none => none
  else none

/-- `eval_visible_predicate`: leaf evaluation of a visibility expression
(literals, string helpers, comparisons, identifier truthiness). -/
def eval_visible_predicate (expr : List Char) (users : UserMap) : Option Bool :=
  let e := trimChars expr
  if e = [] then none
  else if e = ['1'] then some true
  else if e = ['0'] then some false
  else
    match findHelper e with
    | some (idx, mlen, kind) => do
        let left ← parse_visible_operand (e.take idx) users
        let right ← parse_visible_operand ((e.drop (idx + mlen)).dropLast) users
        let l ← value_as_str left
        let r ← value_as_str right
        pure (if kind = "contains" then strContainsSub l r
          else if kind = "startswith" then strStartsWith l r
          else if kind = "endswith" then strEndsWith l r
          else false)
    | none =>
        match find_subslice e ['=', '='] with
        | some idx => do
            let left ← parse_visible_operand (e.take idx) users
            let right ← parse_visible_operand (e.drop (idx + 2)) users
            pure (loosely_equal left right)
        | none =>
            match find_subslice e ['!', '='] with
            | some idx => do
                let left ← parse_visible_operand (e.take idx) users
                let right ← parse_visible_operand (e.drop (idx + 2)) users
                pure (!loosely_equal left right)
            | none =>
                match find_subslice e ['>', '='] with
                | some idx => do
                    let left ← parse_visible_operand (e.take idx) users
                    let right ← parse_visible_operand (e.drop (idx + 2)) users
                    let a ← value_as_f64 left
                    let b ← value_as_f64 right
                    pure (decide (a ≥ b))
                | none =>
                    match find_subslice e ['<', '='] with
                    | some idx => do
                        let left ← parse_visible_operand (e.take idx) users
                        let right ← parse_visible_operand (e.drop (idx + 2)) users
                        let a ← value_as_f64 left
                        let b ← value_as_f64 right
                        pure (decide (a ≤ b))
                    | none =>
                        match find_subslice e ['>'] with
                        | some idx => do
                            let left ← parse_visible_operand (e.take idx) users
                            let right ← parse_visible_operand (e.drop (idx + 1)) users
                            let a ← value_as_f64 left
                            let b ← value_as_f64 right
                            pure (decide (a > b))
                        | none =>
                            match find_subslice e ['<'] with
                            | some idx => do
                                let left ← parse_visible_operand (e.take idx) users
                                let right ← parse_visible_operand (e.drop (idx + 1)) users
                                let a ← value_as_f64 left
                                let b ← value_as_f64 right
                                pure (decide (a < b))
                            | none =>
                                match mapGet users ⟨trimEndMatchesValue e⟩ with
                                | some (.bool b) => some b
                                | some (.num n) => some (decide (n ≠ 0))
                                | some (.str s) =>
                                    some (¬(trimChars s.data = []) ∧ s ≠ "0" ∧
                                      ¬(strEqIgnoreCase s "false" = true) : Bool)
                                | some _ => some false
                                | none => none

/-- The quote-and-paren aware scan of `trim_outer_parens`: index where the
nesting depth first returns to zero at a closing paren. -/
def firstDepthZero : List Char → Int → Bool → Bool → Nat → Option Nat
  | [], _, _, _, _ => none
  | c :: rest, depth, inSq, inDq, i =>
      let inSq2 := if c = '\'' ∧ ¬inDq then !inSq else inSq
      let inDq2 := if c = '"' ∧ ¬inSq then !inDq else inDq
      let depth2 :=
        if c = '(' ∧ ¬inSq ∧ ¬inDq then depth + 1
        else if c = ')' ∧ ¬inSq ∧ ¬inDq then depth - 1
        else depth
      if c = ')' ∧ ¬inSq ∧ ¬inDq ∧ depth2 = 0 then some i
      else firstDepthZero rest depth2 inSq2 inDq2 (i + 1)

/-- Whether the first character opens a paren that closes exactly at the
final character (`balanced_outer` in `trim_outer_parens`). -/
def balancedOuter (t : List Char) : Bool :=
  match firstDepthZero t 0 false false 0 with
  | some i => i = t.length - 1
  | none => false

/-- `trim_outer_parens`, with fuel: each iteration strips one balanced
outer pair, so `length + 1` fuel never runs out. -/
def trimOuterParensFueled : Nat → List Char → List Char
  | 0, e => trimChars e
  | fuel + 1, e =>
      let t := trimChars e
      if t.head? = some '(' ∧ t.getLast? = some ')' then
        if balancedOuter t then trimOuterParensFueled fuel ((t.drop 1).dropLast)
        else t
      else t

/-- `trim_outer_parens` from `scene_gpu_graph.rs`. -/
def trim_outer_parens (e : List Char) : List Char :=
  trimOuterParensFueled (e.length + 1) e

/-- The scan of `find_top_level_op`: first index (outside quotes, at
depth zero) where the two-character operator occurs; the final character
is never a match position (the loop guard is `i + 1 < len`). -/
def findTopLevelOpAux (op1 op2 : Char) :
    List Char → Int → Bool → Bool → Nat → Option Nat
  | c1 :: c2 :: rest, depth, inSq, inDq, i =>
      let inSq2 := if c1 = '\'' ∧ ¬inDq then !inSq else inSq
      let inDq2 := if c1 = '"' ∧ ¬inSq then !inDq else inDq
      let depth2 :=
        if c1 = '(' ∧ ¬inSq ∧ ¬inDq then depth + 1
        else if c1 = ')' ∧ ¬inSq ∧ ¬inDq then depth - 1
        else depth
      if ¬inSq2 ∧ ¬inDq2 ∧ depth2 = 0 ∧ c1 = op1 ∧ c2 = op2 then some i
      else findTopLevelOpAux op1 op2 (c2 :: rest) depth2 inSq2 inDq2 (i + 1)
  | _, _, _, _, _ => none

/-- `find_top_level_op` from `scene_gpu_graph.rs`. -/
def find_top_level_op (e : List Char) (op1 op2 : Char) : Option Nat :=
  findTopLevelOpAux op1 op2 e 0 false false 0

/-- The leading `!` loop of `eval_visible_expr`. -/
def stripBangs : Nat → List Char → Bool → Bool × List Char
  | 0, e, neg => (neg, e)
  | fuel + 1, e, neg =>
      if e.head? = some '!' then
        stripBangs fuel (trim_outer_parens (trimChars (e.drop 1))) (!neg)
      else (neg, e)

/-- `eval_visible_expr`, with fuel: every recursive call is on a strictly
shorter slice, so `length + 1` fuel never runs out.  Unresolved branches
of `||` / `&&` default to `false`. -/
def evalVisibleExprFueled (users : UserMap) : Nat → List Char → Option Bool
  | 0, _ => none
  | fuel + 1, expr =>
      let e0 := trimChars (trim_outer_parens expr)
      let ne := stripBangs e0.length e0 false
      let negate := ne.1
      let e := ne.2
      if e = [] then none
      else
        let base :=
          match find_top_level_op e '|' '|' with
          | some idx =>
              some (((evalVisibleExprFueled users fuel (e.take idx)).getD false) ||
                ((evalVisibleExprFueled users fuel (e.drop (idx + 2))).getD false))
          | none =>
              match find_top_level_op e '&' '&' with
              | some idx =>
                  some (((evalVisibleExprFueled users fuel (e.take idx)).getD false) &&
                    ((evalVisibleExprFueled users fuel (e.drop (idx + 2))).getD false))
              | none => eval_visible_predicate e users
        base.map (fun v => if negate then !v else v)

/-- `eval_visible_expr` from `scene_gpu_graph.rs`. -/
def eval_visible_expr (e : List Char) (users : UserMap) : Option Bool :=
  evalVisibleExprFueled users (e.length + 1) e

/-- `eval_visible_condition`: a bare `0`/`1` condition with a user name is
rewritten to `name.value==digit` first. -/
def eval_visible_condition (cond : String) (user_name : Option String)
    (users : UserMap) : Option Bool :=
  let base := rustTrim cond
  if base.data = [] then none
  else
    let normalized :=
      if (base = "0" ∨ base = "1") ∧ user_name.isSome then
        (user_name.getD "") ++ ".value==" ++ base
      else base
    eval_visible_expr normalized.data users

/-- `parse_object_visible`: bools pass through; visibility objects try the
`user.condition` expression, then a `user` string, then the `value` bool,
then default to `true`. -/
def parse_object_visible (value : Option Json) (users : UserMap) : Bool :=
  match value with
  | none => true
  | some v =>
      match v.asBool with
      | some b => b
      | none =>
          match v.asObj with
          | some _ =>
              let fallbackValue := (v.get "value").bind Json.asBool
              let fallbackTail : Bool :=
                match (v.get "value").bind Json.asBool with
                | some b => b
                | none =>
                    match fallbackValue with
                    | some fb => fb
                    | none => true
              let condResult : Option Bool :=
                match (v.get "user").bind Json.asObj with
                | some _ =>
                    let userObj := (v.get "user").getD .null
                    let condition :=
                      ((userObj.get "condition").bind Json.asStr).getD ""
                    let userName := (userObj.get "name").bind Json.asStr
                    eval_visible_condition condition userName users
                | none => none
              match condResult with
              | some r => r
              | none =>
                  match (v.get "user").bind Json.asStr with
                  | some userName =>
                      match eval_visible_condition userName none users with
                      | some r => r
                      | none => fallbackTail
                  | none => fallbackTail
          | none => true

/-! ## Scene script evaluator (`scene_script.rs`) -/

/-- One parsed script statement (`ScriptAssignment`). -/
structure ScriptAssignment where
  source_path : String
  target_property : String
  expression : String
  depends_on_user : Option String
  resolved_value : Option Json

/-- `try_parse_user_binding`: `{user: "name", value: v}` or
`{user: {name: ...}, value: v}`. -/
def try_parse_user_binding (v : Json) : Option (String × Json) :=
  match v.asObj with
  | none => none
  | some _ =>
      match v.get "value" with
      | none => none
      | some value =>
          match (v.get "user").bind Json.asStr with
          | some userName => some (userName, value)
          | none =>
              match ((v.get "user").bind Json.asObj).bind
                  (fun _ => ((v.get "user").getD .null).get "name") |>.bind Json.asStr with
              | some name => some (name, value)
              | none => none

mutual

/-- `collect_user_bindings_recursive` (first-wins insertion). -/
def collect_user_bindings (v : Json) (out : UserMap) : UserMap :=
  let out1 :=
    match try_parse_user_binding v with
    | some kv => if mapContains out kv.1 then out else out ++ [kv]
    | none => out
  match v with
  | .obj fields => collectBindingsFields fields out1
  | .arr items => collectBindingsItems items out1
  | _ => out1

/-- Walk object fields in order. -/
def collectBindingsFields : List (String × Json) → UserMap → UserMap
  | [], out => out
  | (_, child) :: rest, out =>
      collectBindingsFields rest (collect_user_bindings child out)

/-- Walk array items in order. -/
def collectBindingsItems : List Json → UserMap → UserMap
  | [], out => out
  | child :: rest, out => collectBindingsItems rest (collect_user_bindings child out)

end

/-- `collect_project_defaults` (insert-if-absent per property). -/
def collect_project_defaults (project : Json) (out : UserMap) : UserMap :=
  match ((project.get "general").bind (·.get "properties")).bind Json.asObj with
  | none => out
  | some props =>
      props.foldl
        (fun acc p =>
          match p.2.get "value" with
          | none => acc
          | some default =>
              if mapContains acc p.1 then acc else acc ++ [(p.1, default)])
        out

/-- `collect_scene_user_properties`: project defaults first, then scene
bindings, both first-wins. -/
def collect_scene_user_properties (scene : Json) (project : Option Json) :
    UserMap :=
  let out0 : UserMap := []
  let out1 :=
    match project with
    | some p => collect_project_defaults p out0
    | none => out0
  collect_user_bindings scene out1

/-- Identifier characters (`is_ascii_alphanumeric` or `_`). -/
def isIdentChar (c : Char) : Bool :=
  ('0' ≤ c ∧ c ≤ '9') ∨ ('a' ≤ c ∧ c ≤ 'z') ∨ ('A' ≤ c ∧ c ≤ 'Z') ∨ c = '_'

/-- `parse_identifier`. -/
def parse_identifier (input : List Char) : Option (List Char) :=
  let ident := input.takeWhile isIdentChar
  if ident = [] then none else some ident

/-- `value_to_f64` from `scene_script.rs` (numbers and numeric strings
only; no booleans). -/
def script_value_to_f64 : Json → Option ℚ
  | .num q => some q
  | .str s => parseRustF64 s
  | _ => none

/-- The arithmetic-chain loop of `eval_expression`: `op` then a numeric
token, repeatedly; division by zero is unresolved.  Each iteration
consumes at least the operator character, so `length` fuel suffices. -/
def evalExprChain : Nat → Json → List Char → Option Json
  | 0, cur, _ => some cur
  | fuel + 1, cur, rest =>
      match rest with
      | [] => some cur
      | op :: rest1 =>
          if op = '+' ∨ op = '-' ∨ op = '*' ∨ op = '/' then
            let rest2 := rest1.dropWhile isRustWs
            let tokenLen :=
              (rest2.takeWhile (fun c => isAsciiDigit c ∨ c = '.' ∨ c = '-')).length
            if tokenLen = 0 then some cur
            else
              match parseQChars (trimChars (rest2.take tokenLen)) with
              | none => none
              | some rhs =>
                  match script_value_to_f64 cur with
                  | none => none
                  | some lhs =>
                      let next :=
                        if op = '+' then some (lhs + rhs)
                        else if op = '-' then some (lhs - rhs)
                        else if op = '*' then some (lhs * rhs)
                        else if rhs = 0 then none
                        else some (lhs / rhs)
                      match next with
                      | none => none
                      | some q =>
                          evalExprChain fuel (Json.num q)
                            ((rest2.drop tokenLen).dropWhile isRustWs)
          else some cur

/-- `eval_expression` from `scene_script.rs`. -/
def eval_expression (expr : List Char) (users : UserMap) :
    Option (Option String × Json) :=
  let clean := trimChars expr
  if clean = [] then none
  else
    match find_subslice clean "changedUserProperties.".data with
    | some idx =>
        let after := clean.drop (idx + 22)
        match parse_identifier after with
        | none => none
        | some userKey =>
            match mapGet users ⟨userKey⟩ with
            | none => none
            | some base =>
                let consumed := idx + 22 + userKey.length
                match evalExprChain clean.length base
                    (trimChars (clean.drop consumed)) with
                | none => none
                | some v => some (some ⟨userKey⟩, v)
    | none =>
        match parseQChars (trimChars clean) with
        | some num => some (none, Json.num num)
        | none =>
            if strEqIgnoreCase ⟨clean⟩ "true" ∨ strEqIgnoreCase ⟨clean⟩ "false" then
              some (none, Json.bool (strEqIgnoreCase ⟨clean⟩ "true"))
            else none

/-- Split a character list on a separator, keeping empty pieces
(`str::split`). -/
def splitOnChar (sep : Char) : List Char → List (List Char)
  | [] => [[]]
  | c :: rest =>
      if c = sep then [] :: splitOnChar sep rest
      else
        match splitOnChar sep rest with
        | [] => [[c]]
        | s :: ss => (c :: s) :: ss

/-- Rust `str::rfind(char)`. -/
def rfindChar (c : Char) (l : List Char) : Option Nat :=
  (l.reverse.findIdx? (· = c)).map (fun i => l.length - 1 - i)

/-- Rust `str::rfind(&str)` (last occurrence of a substring). -/
def rfindSub (hay needle : List Char) : Option Nat :=
  (find_subslice hay.reverse needle.reverse).map
    (fun i => hay.length - needle.length - i)

/-- `parse_script_assignments`: statements split on `;`, each of the form
`… thisObject.<prop> = <expr>`. -/
def parse_script_assignments (script : String) (source_path : String)
    (users : UserMap) : List ScriptAssignment :=
  (splitOnChar ';' script.data).filterMap (fun stmt =>
    let trimmed := trimChars stmt
    if ¬((find_subslice trimmed "thisObject.".data).isSome ∧ '=' ∈ trimmed) then
      none
    else
      match rfindChar '=' trimmed with
      | none => none
      | some eqIdx =>
          let lhs := trimChars (trimmed.take eqIdx)
          let rhs := trimChars (trimmed.drop (eqIdx + 1))
          match rfindSub lhs "thisObject.".data with
          | none => none
          | some pos =>
              let targetRaw := trimChars (lhs.drop (pos + 11))
              let targetProperty := (parse_identifier targetRaw).getD []
              if targetProperty = [] then none
              else
                let evalRes := eval_expression rhs users
                some { source_path := source_path
                       target_property := ⟨targetProperty⟩
                       expression := ⟨rhs⟩
                       depends_on_user :=
                         match evalRes with
                         | some (d, _) => d
                         | none => none
                       resolved_value :=
                         match evalRes with
                         | some (_, v) => some v
                         | none => none })

mutual

/-- `collect_scripts_recursive`: gather assignments from every `script`
string in the scene tree, tracking a JSON path. -/
def collect_scripts (v : Json) (path : String) (users : UserMap) :
    List ScriptAssignment :=
  match v with
  | .obj fields =>
      let fromScript :=
        match (v.get "script").bind Json.asStr with
        | some script => parse_script_assignments script path users
        | none => []
      fromScript ++ collectScriptsFields fields path users
  | .arr items => collectScriptsItems items path users 0
  | _ => []

/-- Walk object fields, extending the path with `.key`. -/
def collectScriptsFields :
    List (String × Json) → String → UserMap → List ScriptAssignment
  | [], _, _ => []
  | (k, child) :: rest, path, users =>
      let next := if path = "" then k else path ++ "." ++ k
      collect_scripts child next users ++ collectScriptsFields rest path users

/-- Walk array items, extending the path with an index. -/
def collectScriptsItems :
    List Json → String → UserMap → Nat → List ScriptAssignment
  | [], _, _, _ => []
  | child :: rest, path, users, i =>
      collect_scripts child (path ++ "[" ++ toString i ++ "]") users ++
        collectScriptsItems rest path users (i + 1)

end

/-- `ScriptEvalResult`. -/
structure ScriptEvalResult where
  assignments : List ScriptAssignment
  notes : List String

/-- `apply_scene_scripts`. -/
def apply_scene_scripts (scene : Json) (users : UserMap) : ScriptEvalResult :=
  let assignments := collect_scripts scene "" users
  let notes :=
    if assignments.isEmpty then []
    else
      let resolvedCount :=
        (assignments.filter (fun a => a.resolved_value.isSome)).length
      let totalCount := assignments.length
      [s!"Script runtime (minimal) evaluated {resolvedCount}/{totalCount} assignments"]
  ⟨assignments, notes⟩

/-! ## Effect graph builder (`scene_gpu_graph.rs`) -/

/-- An opening brace character (kept out of string literals). -/
def lbraceChar : Char := Char.ofNat 123

/-- A closing brace character. -/
def rbraceChar : Char := Char.ofNat 125

/-- Nonempty whitespace-separated tokens (`str::split_whitespace`). -/
def splitWhitespaceChars (l : List Char) : List (List Char) :=
  (l.splitOnP isRustWs).filter (· ≠ [])

/-- `parse_scene_size`: `general.orthogonalprojection.{width,height}`,
defaulting to 1920×1080, truncated `as u32`, clamped to at least 1. -/
def parse_scene_size (scene : Json) : Nat × Nat :=
  let width :=
    ((((scene.get "general").bind (·.get "orthogonalprojection")).bind
        (·.get "width")).bind Json.asU64).getD 1920 % 2 ^ 32
  let height :=
    ((((scene.get "general").bind (·.get "orthogonalprojection")).bind
        (·.get "height")).bind Json.asU64).getD 1080 % 2 ^ 32
  (max width 1, max height 1)

/-- `parse_vec3`: three leading whitespace-separated float tokens. -/
def parse_vec3 (v : Json) : Option (ℚ × ℚ × ℚ) :=
  match v.asStr with
  | none => none
  | some s =>
      match splitWhitespaceChars s.data with
      | x :: y :: z :: _ => do
          let a ← parseQChars x
          let b ← parseQChars y
          let c ← parseQChars z
          pure (a, b, c)
      | _ => none

/-- `parse_vec2`: two leading whitespace-separated float tokens. -/
def parse_vec2 (v : Json) : Option (ℚ × ℚ) :=
  match v.asStr with
  | none => none
  | some s =>
      match splitWhitespaceChars s.data with
      | x :: y :: _ => do
          let a ← parseQChars x
          let b ← parseQChars y
          pure (a, b)
      | _ => none

/-- `parse_width_height_from_object_data`: positive width/height only. -/
def parse_width_height_from_object_data (v : Json) : Option (ℚ × ℚ) :=
  match (v.get "width").bind Json.asF64, (v.get "height").bind Json.asF64 with
  | some w, some h => if w ≤ 0 ∨ h ≤ 0 then none else some (w, h)
  | _, _ => none

/-- `dedup_preserve`: drop empties and duplicates, keeping first
occurrences in order. -/
def dedup_preserve (values : List String) : List String :=
  values.foldl
    (fun out v => if v = "" ∨ out.contains v then out else out ++ [v]) []

/-- `BTreeMap::insert` (replace an existing key in place, else append). -/
def mapSet (m : UserMap) (k : String) (v : Json) : UserMap :=
  if mapContains m k then m.map (fun p => if p.1 = k then (k, v) else p)
  else m ++ [(k, v)]

/-- The outcome of one `AssetResolver::resolve` call, with the raw bytes
abstracted into their parse results: `json` is
`serde_json::from_slice(&bytes).ok()`, `text` is
`String::from_utf8(bytes).ok()`. -/
structure ModelAsset where
  resolved_path : String
  json : Option Json
  text : Option String

/-- The asset resolver as an oracle: `resolve` abstracts the layered
archive/directory/global lookup of `asset_resolver.rs` (file system I/O),
plus the two path accessors the graph builder reads. -/
structure ResolverModel where
  resolve : String → Option ModelAsset
  pkg_path : Option String
  global_assets_root : Option String

/-- `parse_json_asset`. -/
def parse_json_asset (r : String → Option ModelAsset) (path : String) :
    Option (Json × String) :=
  match r path with
  | none => none
  | some a => a.json.map (·, a.resolved_path)

/-- `AssetResolver::resolve_first`. -/
def resolve_first (r : String → Option ModelAsset) (candidates : List String) :
    Option ModelAsset :=
  candidates.findSome? r

mutual

/-- `resolve_user_bound_value`: replace `{user, value}` objects by the
bound user value (or the inline default), recursively. -/
def resolve_user_bound_value (v : Json) (users : UserMap) : Json :=
  match v with
  | .obj fields =>
      match ((Json.obj fields).get "user").bind Json.asStr with
      | some user =>
          match mapGet users user with
          | some uv => uv
          | none =>
              match (Json.obj fields).get "value" with
              | some value => value
              | none => .null
      | none => .obj (resolveUserBoundFields fields users)
  | .arr items => .arr (resolveUserBoundItems items users)
  | _ => v

/-- Field-wise recursion. -/
def resolveUserBoundFields :
    List (String × Json) → UserMap → List (String × Json)
  | [], _ => []
  | (k, child) :: rest, users =>
      (k, resolve_user_bound_value child users) ::
        resolveUserBoundFields rest users

/-- Item-wise recursion. -/
def resolveUserBoundItems : List Json → UserMap → List Json
  | [], _ => []
  | child :: rest, users =>
      resolve_user_bound_value child users :: resolveUserBoundItems rest users

end

/-- `apply_instance_override_uniforms`: alpha, brightness, color, count
and size instance overrides map to fixed uniform names. -/
def apply_instance_override_uniforms (uniforms : UserMap)
    (instance_override : Json) : UserMap :=
  match instance_override.asObj with
  | none => uniforms
  | some _ =>
      let u1 :=
        match instance_override.get "alpha" with
        | some a => mapSet uniforms "g_UserAlpha" a
        | none => uniforms
      let u2 :=
        match instance_override.get "brightness" with
        | some b => mapSet u1 "g_Brightness" b
        | none => u1
      let u3 :=
        match instance_override.get "color" with
        | some c => mapSet u2 "g_EmissiveColor" c
        | none => u2
      let u4 :=
        match instance_override.get "count" with
        | some c => mapSet u3 "instance_count" c
        | none => u3
      match instance_override.get "size" with
      | some s => mapSet u4 "instance_size" s
      | none => u4

/-- Rust `str::strip_prefix`. -/
def stripPrefixStr (s p : String) : Option String :=
  if strStartsWith s p then some ⟨s.data.drop p.data.length⟩ else none

/-- `splitn(2, '/')` yielding both pieces (when a separator exists). -/
def splitN2Slash (s : String) : Option (String × String) :=
  match find_subslice s.data ['/'] with
  | some i => some (⟨s.data.take i⟩, ⟨s.data.drop (i + 1)⟩)
  | none => none

/-- `shader_candidates` from `scene_gpu_graph.rs`. -/
def shader_candidates (shader : String) (ext : String) : List String :=
  let s := rustTrim shader
  if s.data = [] then []
  else
    let cands :=
      if strEndsWith s ("." ++ ext) then [s]
      else if ¬(strEndsWith s ".vert") ∧ ¬(strEndsWith s ".frag") then
        let base := [s ++ "." ++ ext, "shaders/" ++ s ++ "." ++ ext,
          "assets/shaders/" ++ s ++ "." ++ ext]
        let eff :=
          if strStartsWith s "effects/" then
            [s ++ "/shaders/" ++ s ++ "." ++ ext,
             "assets/" ++ s ++ "/shaders/" ++ s ++ "." ++ ext]
          else []
        let ws :=
          match stripPrefixStr s "effects/workshop/" with
          | some rest =>
              match splitN2Slash rest with
              | some (wid, ename) =>
                  ["shaders/workshop/" ++ wid ++ "/effects/" ++ ename ++ "." ++ ext,
                   "assets/shaders/workshop/" ++ wid ++ "/effects/" ++ ename ++ "." ++ ext,
                   "workshop/" ++ wid ++ "/shaders/effects/" ++ ename ++ "." ++ ext]
              | none => []
          | none => []
        base ++ eff ++ ws
      else []
    dedup_preserve cands

/-- `Path::extension().is_some()`: the file name after the last slash has
a dot that is not its first character. -/
def pathHasExtension (t : String) : Bool :=
  let fname :=
    match rfindChar '/' t.data with
    | some i => t.data.drop (i + 1)
    | none => t.data
  match rfindChar '.' fname with
  | some i => i ≠ 0
  | none => false

/-- `texture_candidates` from `scene_gpu_graph.rs`. -/
def texture_candidates (token : String) : List String :=
  let t := rustTrim token
  if t.data = [] then []
  else if pathHasExtension t then
    dedup_preserve [t, "materials/" ++ t, "assets/materials/" ++ t]
  else
    let exts := ["tex", "tex-json", "png", "jpg", "jpeg", "webp", "bmp",
      "tga", "gif"]
    let per := fun (pre : String) =>
      (pre ++ t) :: exts.map (fun ext => pre ++ t ++ "." ++ ext)
    dedup_preserve (per "" ++ per "materials/" ++ per "assets/materials/")

/-- A uniform binding harvested from shader source
(`ShaderUniformBinding`). -/
structure ShaderUniformBinding where
  shader_stage : String
  uniform : String
  material_key : Option String
  default_value : Option Json
  metadata : Json

/-- Rust `str::lines`: split on newlines, drop a final empty line, strip
one trailing carriage return per line. -/
def rustLines (l : List Char) : List (List Char) :=
  let parts := splitOnChar '\n' l
  let parts2 := if parts.getLast? = some [] then parts.dropLast else parts
  parts2.map (fun ln => if ln.getLast? = some '\r' then ln.dropLast else ln)

/-- `parse_uniform_meta_from_shader`: harvest
`uniform T name; // {json}` lines.  `serde_json::from_str` on the comment
text is abstracted as the oracle `jp` (the same serde parser already
abstracted inside the resolver oracle). -/
def parse_uniform_meta_from_shader (jp : String → Option Json) (src : String)
    (stage : String) : List ShaderUniformBinding :=
  (rustLines src.data).filterMap (fun rawLine =>
    let line := trimChars rawLine
    if ¬(strStartsWith ⟨line⟩ "uniform " ∧ (find_subslice line ['/', '/']).isSome ∧
        lbraceChar ∈ line) then none
    else
      match find_subslice line ['/', '/'] with
      | none => none
      | some idx =>
          let left := line.take idx
          let right := line.drop (idx + 2)
          let beforeSemicolon :=
            match find_subslice left [';'] with
            | some si => left.take si
            | none => left
          let uniformTok :=
            trimChars (((splitWhitespaceChars beforeSemicolon).getLast?).getD [])
          if uniformTok = [] then none
          else
            match find_subslice right [lbraceChar] with
            | none => none
            | some js =>
                match rfindChar rbraceChar right with
                | none => none
                | some je =>
                    if je < js then none
                    else
                      let jsonText := (right.drop js).take (je + 1 - js)
                      match jp ⟨jsonText⟩ with
                      | none => none
                      | some meta =>
                          some { shader_stage := stage
                                 uniform := ⟨uniformTok⟩
                                 material_key :=
                                   (meta.get "material").bind Json.asStr
                                 default_value := meta.get "default"
                                 metadata := meta })

/-- ASCII alphanumeric character. -/
def isAsciiAlphanumChar (c : Char) : Bool :=
  ('0' ≤ c ∧ c ≤ '9') ∨ ('a' ≤ c ∧ c ≤ 'z') ∨ ('A' ≤ c ∧ c ≤ 'Z')

/-- `material_key_to_uniform`: the fixed material-key → uniform table,
keyed on the lowercased alphanumeric-only material key. -/
def material_key_to_uniform (material_key : String) : Option String :=
  let normalized :=
    asciiLowerStr ⟨material_key.data.filter isAsciiAlphanumChar⟩
  if normalized = "alpha" then some "g_UserAlpha"
  else if normalized = "bright" ∨ normalized = "brightness" then some "g_Brightness"
  else if normalized = "power" then some "g_Power"
  else if normalized = "scroll1x" ∨ normalized = "scrollx" then some "g_ScrollX"
  else if normalized = "scroll1y" ∨ normalized = "scrolly" then some "g_ScrollY"
  else if normalized = "scroll2x" then some "g_Scroll2X"
  else if normalized = "scroll2y" then some "g_Scroll2Y"
  else if normalized = "color1" then some "g_Color1"
  else if normalized = "color2" then some "g_Color2"
  else if normalized = "emissivecolor" then some "g_EmissiveColor"
  else if normalized = "emissivebrightness" then some "g_EmissiveBrightness"
  else if normalized = "metallic" then some "g_Metallic"
  else if normalized = "roughness" then some "g_Roughness"
  else if normalized = "reflectivity" then some "g_Reflectivity"
  else if normalized = "speed" ∨ normalized = "flowspeed" then some "g_FlowSpeed"
  else if normalized = "amount" ∨ normalized = "flowamp" then some "g_FlowAmp"
  else none

/-- String sort (`Vec::sort`); UTF-8 byte order equals code-point order. -/
def sortStrings (l : List String) : List String :=
  l.mergeSort (fun a b => a ≤ b)

/-- `combos_to_shader_defines`: combo switches become shader defines;
false/zero/empty values are dropped, results sorted. -/
def combos_to_shader_defines (combos : Json) : List String :=
  match combos.asObj with
  | none => []
  | some fields =>
      let out := fields.foldl
        (fun out kv =>
          let key := rustTrim kv.1
          if key.data = [] then out
          else
            match kv.2 with
            | .bool true => out ++ [key]
            | .bool false => out
            | .num n =>
                if n.den = 1 ∧ -(2 ^ 63) ≤ n.num ∧ n.num < 2 ^ 63 then
                  if n.num ≠ 0 then out ++ [key ++ "=" ++ toString n.num] else out
                else if n ≠ 0 then out ++ [key ++ "=" ++ qToString n] else out
            | .str s =>
                if (rustTrim s).data ≠ [] then out ++ [key ++ "=" ++ rustTrim s]
                else out
            | _ => out)
        []
      sortStrings out

/-- `resolve_uniform_values`: the four-stage effective-uniform
computation (bindings with their lookup chain, then canonical fallbacks
from constants, user values and script values). -/
def resolve_uniform_values (pass : Json)
    (uniform_bindings : List ShaderUniformBinding)
    (user_values script_values : UserMap) : UserMap :=
  let constant := ((pass.get "constantshadervalues").bind Json.asObj).getD []
  let user_bindings := ((pass.get "usershadervalues").bind Json.asObj).getD []
  let out0 : UserMap := []
  let out1 := uniform_bindings.foldl
    (fun out ub =>
      match ub.material_key with
      | none => out
      | some mk =>
          match mapGet constant mk with
          | some value => mapSet out ub.uniform value
          | none =>
              match ((mapGet user_bindings mk).bind Json.asStr).bind
                  (mapGet user_values) with
              | some value => mapSet out ub.uniform value
              | none =>
                  let reverseUserKey :=
                    (user_bindings.find? (fun kv => kv.2.asStr = some mk)).map (·.1)
                  match reverseUserKey.bind (mapGet user_values) with
                  | some value => mapSet out ub.uniform value
                  | none =>
                      match mapGet script_values mk with
                      | some value => mapSet out ub.uniform value
                      | none =>
                          match ub.default_value with
                          | some d => mapSet out ub.uniform d
                          | none => out)
    out0
  let out2 := constant.foldl
    (fun out kv =>
      match material_key_to_uniform kv.1 with
      | none => out
      | some uniform =>
          if mapContains out uniform then out else out ++ [(uniform, kv.2)])
    out1
  let out3 := user_bindings.foldl
    (fun out kv =>
      match material_key_to_uniform kv.1 with
      | none => out
      | some uniform =>
          if mapContains out uniform then out
          else
            match (kv.2.asStr).bind (mapGet user_values) with
            | some value => out ++ [(uniform, value)]
            | none => out)
    out2
  script_values.foldl
    (fun out kv =>
      match material_key_to_uniform kv.1 with
      | none => out
      | some uniform =>
          if mapContains out uniform then out else out ++ [(uniform, kv.2)])
    out3

mutual

/-- `deep_merge` inside `merge_pass_overrides`: objects merge
recursively, `null` overrides preserve the base, anything else
replaces. -/
def deep_merge : Json → Json → Json
  | base, ov =>
      match base, ov with
      | .obj b, .obj o => .obj (deepMergeInto b o)
      | _, .null => base
      | _, _ => ov

/-- Walk the override object's entries into the base map. -/
def deepMergeInto (out : List (String × Json)) :
    List (String × Json) → List (String × Json)
  | [] => out
  | (k, vOv) :: rest =>
      let out2 :=
        match ((out.find? (fun p => p.1 = k)).map (·.2)) with
        | some vBase =>
            let merged := deep_merge vBase vOv
            out.map (fun p => if p.1 = k then (k, merged) else p)
        | none => out ++ [(k, vOv)]
      deepMergeInto out2 rest

end

/-- `merge_pass_overrides`. -/
def merge_pass_overrides (base_pass : Json) (override_pass : Option Json) :
    Json :=
  match override_pass with
  | some ov => deep_merge base_pass ov
  | none => base_pass

/-- `effect_override_for_material_pass`: the sequential-cursor override
selection; returns the chosen override and the updated cursor (the Rust
function mutates `sequential_cursor` in place). -/
def effect_override_for_material_pass (effect_overrides : List Json)
    (effect_pass_idx material_pass_idx : Nat) (sequential_cursor : Nat)
    (material_pass_count : Nat) : Option Json × Nat :=
  if sequential_cursor + material_pass_count ≤ effect_overrides.length then
    let ov := effect_overrides[sequential_cursor + material_pass_idx]?
    let cursor2 :=
      if material_pass_idx + 1 = material_pass_count then
        sequential_cursor + material_pass_count
      else sequential_cursor
    (ov, cursor2)
  else
    match effect_overrides[effect_pass_idx]? with
    | none => (none, sequential_cursor)
    | some fallback =>
        match ((fallback.get "passes").bind Json.asArr).bind
            (fun arr => arr[material_pass_idx]?) with
        | some loc => (some loc, sequential_cursor)
        | none =>
            (if material_pass_idx = 0 then some fallback else none,
              sequential_cursor)

/-- One pass specification of an effect node (`GpuPassSpec`). -/
structure GpuPassSpec where
  pass_index : Nat
  shader : String
  combos : Json
  shader_defines : List String
  blending : Option String
  depth_test : Option String
  depth_write : Option String
  cull_mode : Option String
  constant_shader_values : Json
  user_shader_values : Json
  textures : List String
  texture_refs : List String
  effective_uniforms : UserMap

/-- One emitted effect node (`GpuEffectNode`). -/
structure GpuEffectNode where
  object_index : Nat
  object_id : Nat
  object_name : String
  object_kind : String
  object_asset : Option String
  object_origin : Option (ℚ × ℚ × ℚ)
  object_scale : Option (ℚ × ℚ × ℚ)
  object_angles : Option (ℚ × ℚ × ℚ)
  object_size : Option (ℚ × ℚ)
  object_asset_size : Option (ℚ × ℚ)
  object_parallax_depth : Option (ℚ × ℚ)
  object_visible : Bool
  effect_index : Option Nat
  instance_override : Json
  effect_file : String
  effect_name : String
  material_asset : Option String
  pass_shader : String
  pass_index : Nat
  passes : List GpuPassSpec
  shader_vert : Option String
  shader_frag : Option String
  material_json : Option String
  uniform_bindings : List ShaderUniformBinding

/-- The built graph (`SceneGpuGraph`). -/
structure SceneGpuGraph where
  pkg_path : String
  scene_json_entry : String
  scene_width : Nat
  scene_height : Nat
  global_assets_root : Option String
  user_properties : Json
  script_properties : Json
  script_assignments : List ScriptAssignment
  effect_nodes : List GpuEffectNode
  notes : List String

/-- The per-object state captured by the `push_material_passes` closure. -/
structure PushCtx where
  object_index : Nat
  object_id : Nat
  object_name : String
  object_kind : String
  object_asset_resolved : String
  object_origin : Option (ℚ × ℚ × ℚ)
  object_scale : Option (ℚ × ℚ × ℚ)
  object_angles : Option (ℚ × ℚ × ℚ)
  object_size : Option (ℚ × ℚ)
  object_asset_size : Option (ℚ × ℚ)
  object_parallax_depth : Option (ℚ × ℚ)
  object_visible : Bool
  instance_override : Json
  user_values : UserMap
  script_values : UserMap

/-- The body of the `push_material_passes` loop for one pass: resolve
shaders and textures, harvest uniform bindings, compute effective
uniforms, emit one node holding one pass spec. -/
def build_pass_node (r : ResolverModel) (jp : String → Option Json)
    (ctx : PushCtx) (material_asset_resolved effect_file effect_name : String)
    (effect_index : Option Nat) (pipeline_pass_index : Nat) (pass : Json) :
    GpuEffectNode :=
  let shader_name := ((pass.get "shader").bind Json.asStr).getD ""
  let shader_vert :=
    (resolve_first r.resolve (shader_candidates shader_name "vert")).map
      (·.resolved_path)
  let shader_frag :=
    (resolve_first r.resolve (shader_candidates shader_name "frag")).map
      (·.resolved_path)
  let texture_refs :=
    (((pass.get "textures").bind Json.asArr).getD []).filterMap Json.asStr
  let textures := texture_refs.map (fun tex =>
    ((resolve_first r.resolve (texture_candidates tex)).map
      (·.resolved_path)).getD tex)
  let vertBindings :=
    match shader_vert with
    | some v =>
        match (r.resolve v).bind (·.text) with
        | some src => parse_uniform_meta_from_shader jp src "vert"
        | none => []
    | none => []
  let fragBindings :=
    match shader_frag with
    | some v =>
        match (r.resolve v).bind (·.text) with
        | some src => parse_uniform_meta_from_shader jp src "frag"
        | none => []
    | none => []
  let uniform_bindings := vertBindings ++ fragBindings
  let effective0 :=
    resolve_uniform_values pass uniform_bindings ctx.user_values ctx.script_values
  let effective_uniforms :=
    apply_instance_override_uniforms effective0 ctx.instance_override
  let pass_spec : GpuPassSpec :=
    { pass_index := pipeline_pass_index
      shader := shader_name
      combos := (pass.get "combos").getD .null
      shader_defines := combos_to_shader_defines ((pass.get "combos").getD .null)
      blending := (pass.get "blending").bind Json.asStr
      depth_test := (pass.get "depthtest").bind Json.asStr
      depth_write := (pass.get "depthwrite").bind Json.asStr
      cull_mode := (pass.get "cullmode").bind Json.asStr
      constant_shader_values := (pass.get "constantshadervalues").getD .null
      user_shader_values := (pass.get "usershadervalues").getD .null
      textures := textures
      texture_refs := texture_refs
      effective_uniforms := effective_uniforms }
  { object_index := ctx.object_index
    object_id := ctx.object_id
    object_name := ctx.object_name
    object_kind := ctx.object_kind
    object_asset := some ctx.object_asset_resolved
    object_origin := ctx.object_origin
    object_scale := ctx.object_scale
    object_angles := ctx.object_angles
    object_size := ctx.object_size
    object_asset_size := ctx.object_asset_size
    object_parallax_depth := ctx.object_parallax_depth
    object_visible := ctx.object_visible
    effect_index := effect_index
    instance_override := ctx.instance_override
    effect_file := effect_file
    effect_name := effect_name
    material_asset := some material_asset_resolved
    pass_shader := shader_name
    pass_index := pipeline_pass_index
    passes := [pass_spec]
    shader_vert := shader_vert
    shader_frag := shader_frag
    material_json := some material_asset_resolved
    uniform_bindings := uniform_bindings }

/-- `push_material_passes`: one node per pass, with consecutive pipeline
pass indices starting at `startIdx`. -/
def push_material_passes (r : ResolverModel) (jp : String → Option Json)
    (ctx : PushCtx) (passes_data : List Json)
    (material_asset_resolved effect_file effect_name : String)
    (effect_index : Option Nat) (startIdx : Nat) : List GpuEffectNode :=
  passes_data.mapIdx (fun i pass =>
    build_pass_node r jp ctx material_asset_resolved effect_file effect_name
      effect_index (startIdx + i) pass)

/-- Merge each material pass with its selected override, threading the
sequential cursor in declaration order. -/
def mergeMatPasses (ovs : List Json) (epi count : Nat) :
    List Json → Nat → Nat → List Json × Nat
  | [], _, cursor => ([], cursor)
  | basePass :: rest, matIdx, cursor =>
      let sel := effect_override_for_material_pass ovs epi matIdx cursor count
      let merged := merge_pass_overrides basePass sel.1
      let tail := mergeMatPasses ovs epi count rest (matIdx + 1) sel.2
      (merged :: tail.1, tail.2)

/-- `rsplit('/').nth(1)` with an `"effect"` default: the parent directory
segment of the resolved effect path. -/
def effectNameOfPath (p : String) : String :=
  (((splitOnChar '/' p.data).reverse[1]?).map (fun l => (⟨l⟩ : String))).getD
    "effect"

/-- The loop over one effect entry's `passes[]` (each naming a material):
resolve the material, merge overrides, emit nodes; returns
(nodes, notes, cursor, next pass index). -/
def processEffectPasses (r : ResolverModel) (jp : String → Option Json)
    (ctx : PushCtx) (ovs : List Json) (effectFileResolved effectName : String)
    (effectIdx : Nat) :
    List Json → Nat → Nat → Nat →
      List GpuEffectNode × List String × Nat × Nat
  | [], _, cursor, passIdx => ([], [], cursor, passIdx)
  | ep :: rest, epi, cursor, passIdx =>
      match (ep.get "material").bind Json.asStr with
      | none => processEffectPasses r jp ctx ovs effectFileResolved effectName
          effectIdx rest (epi + 1) cursor passIdx
      | some matRef =>
          match parse_json_asset r.resolve matRef with
          | none =>
              let one := processEffectPasses r jp ctx ovs effectFileResolved
                effectName effectIdx rest (epi + 1) cursor passIdx
              let objectName := ctx.object_name
              (one.1,
                s!"Object {objectName} effect material not found: {matRef}" ::
                  one.2.1,
                one.2.2)
          | some (matData, matResolved) =>
              match (matData.get "passes").bind Json.asArr with
              | none => processEffectPasses r jp ctx ovs effectFileResolved
                  effectName effectIdx rest (epi + 1) cursor passIdx
              | some matPasses =>
                  let mg := mergeMatPasses ovs epi matPasses.length matPasses 0
                    cursor
                  let nodes := push_material_passes r jp ctx mg.1 matResolved
                    effectFileResolved effectName (some effectIdx) passIdx
                  let one := processEffectPasses r jp ctx ovs effectFileResolved
                    effectName effectIdx rest (epi + 1) mg.2
                    (passIdx + mg.1.length)
                  (nodes ++ one.1, one.2.1, one.2.2)

/-- The loop over an object's `effects[]` (enumerated): invisible entries
and entries without a resolvable file or a passes array are skipped. -/
def processEffects (r : ResolverModel) (jp : String → Option Json)
    (ctx : PushCtx) :
    List (Nat × Json) → Nat → Nat → List GpuEffectNode × List String
  | [], _, _ => ([], [])
  | (effectIdx, effect) :: rest, cursor, passIdx =>
      let effectVisible :=
        parse_object_visible (effect.get "visible") ctx.user_values
      if ¬effectVisible then processEffects r jp ctx rest cursor passIdx
      else
        match (effect.get "file").bind Json.asStr with
        | none => processEffects r jp ctx rest cursor passIdx
        | some fileRef =>
            match parse_json_asset r.resolve fileRef with
            | none =>
                let one := processEffects r jp ctx rest cursor passIdx
                let objectName := ctx.object_name
                (one.1,
                  s!"Object {objectName} effect not found: {fileRef}" :: one.2)
            | some (effData, effResolved) =>
                match (effData.get "passes").bind Json.asArr with
                | none => processEffects r jp ctx rest cursor passIdx
                | some effPasses =>
                    let ovs := ((effect.get "passes").bind Json.asArr).getD []
                    let effectName := effectNameOfPath effResolved
                    let this := processEffectPasses r jp ctx ovs effResolved
                      effectName effectIdx effPasses 0 cursor passIdx
                    let one := processEffects r jp ctx rest this.2.2.1 this.2.2.2
                    (this.1 ++ one.1, this.2.1 ++ one.2)

/-- Process one scene object: objects without an `image`/`particle`
string, an unresolvable asset or material, or a material without a
`passes[]` array are skipped with a note; otherwise the base material
passes are emitted first, then each visible effect's material passes,
with a per-object pipeline pass counter starting at 0. -/
def processObject (r : ResolverModel) (jp : String → Option Json)
    (user_values script_values : UserMap) (object_index : Nat)
    (object : Json) : List GpuEffectNode × List String :=
  let objectId := ((object.get "id").bind Json.asU64).getD 0
  let objectName := ((object.get "name").bind Json.asStr).getD ""
  let kindAsset : Option (String × String) :=
    match (object.get "image").bind Json.asStr with
    | some img => some ("image", img)
    | none =>
        match (object.get "particle").bind Json.asStr with
        | some p => some ("particle", p)
        | none => none
  match kindAsset with
  | none => ([], [])
  | some (objectKind, objectAssetRef) =>
      let objectOrigin := (object.get "origin").bind parse_vec3
      let objectScale := (object.get "scale").bind parse_vec3
      let objectAngles := (object.get "angles").bind parse_vec3
      let objectSize := (object.get "size").bind parse_vec2
      let objectParallaxDepth := (object.get "parallaxDepth").bind parse_vec2
      let objectVisible := parse_object_visible (object.get "visible") user_values
      let instanceOverride :=
        match object.get "instanceoverride" with
        | some v => resolve_user_bound_value v user_values
        | none => Json.null
      match parse_json_asset r.resolve objectAssetRef with
      | none =>
          ([], [s!"Object {objectName} references missing asset: {objectAssetRef}"])
      | some (objectData, objectAssetResolved) =>
          let objectAssetSize := parse_width_height_from_object_data objectData
          match (objectData.get "material").bind Json.asStr with
          | none =>
              ([], [s!"Object {objectName} asset {objectAssetResolved} has no material"])
          | some materialRef =>
              match parse_json_asset r.resolve materialRef with
              | none =>
                  ([], [s!"Object {objectName} material not found: {materialRef}"])
              | some (materialData, materialAssetResolved) =>
                  match (materialData.get "passes").bind Json.asArr with
                  | none =>
                      ([], [s!"Material {materialAssetResolved} has no passes"])
                  | some passes =>
                      let ctx : PushCtx :=
                        { object_index := object_index
                          object_id := objectId
                          object_name := objectName
                          object_kind := objectKind
                          object_asset_resolved := objectAssetResolved
                          object_origin := objectOrigin
                          object_scale := objectScale
                          object_angles := objectAngles
                          object_size := objectSize
                          object_asset_size := objectAssetSize
                          object_parallax_depth := objectParallaxDepth
                          object_visible := objectVisible
                          instance_override := instanceOverride
                          user_values := user_values
                          script_values := script_values }
                      let baseNodes := push_material_passes r jp ctx passes
                        materialAssetResolved materialAssetResolved
                        "base-material" none 0
                      let eff :=
                        match (object.get "effects").bind Json.asArr with
                        | some effects =>
                            processEffects r jp ctx effects.enum 0 passes.length
                        | none => ([], [])
                      (baseNodes ++ eff.1, eff.2)

/-- The closing summary notes of `build_scene_gpu_graph`. -/
def buildFinalNotes (effect_nodes : List GpuEffectNode) : List String :=
  let n := effect_nodes.length
  (if effect_nodes.isEmpty then
    ["No material/pass nodes were generated from scene objects"]
   else [s!"Built {n} material pass nodes from scene objects"]) ++
  ["Graph source: scene -> model/particle -> material -> passes -> shader"]

/-- `build_scene_gpu_graph` over the resolver oracle `r` and the serde
parser oracle `jp`: `none` models the two bail-out failures (no scene
manifest, scene JSON fails to parse); every other asset failure degrades
to a note.  The Lean function is total, so the builder terminates on
every input. -/
def build_scene_gpu_graph (r : ResolverModel) (jp : String → Option Json) :
    Option SceneGpuGraph :=
  match (r.resolve "scene.json").orElse (fun _ => r.resolve "gifscene.json") with
  | none => none
  | some scene_asset =>
      match scene_asset.json with
      | none => none
      | some scene_json =>
          let project_json := (r.resolve "project.json").bind (·.json)
          let sz := parse_scene_size scene_json
          let user_values := collect_scene_user_properties scene_json project_json
          let script_eval := apply_scene_scripts scene_json user_values
          let script_values := script_eval.assignments.foldl
            (fun m a =>
              match a.resolved_value with
              | some v => mapSet m a.target_property v
              | none => m)
            []
          let objResults : List (List GpuEffectNode × List String) :=
            match (scene_json.get "objects").bind Json.asArr with
            | some objects =>
                objects.enum.map (fun (oi : Nat × Json) =>
                  processObject r jp user_values script_values oi.1 oi.2)
            | none => []
          let effect_nodes := (objResults.map (·.1)).flatten
          let objNotes := (objResults.map (·.2)).flatten
          some
            { pkg_path := r.pkg_path.getD ""
              scene_json_entry := scene_asset.resolved_path
              scene_width := sz.1
              scene_height := sz.2
              global_assets_root := r.global_assets_root
              user_properties := Json.obj user_values
              script_properties := Json.obj script_values
              script_assignments := script_eval.assignments
              effect_nodes := effect_nodes
              notes := script_eval.notes ++ objNotes ++
                buildFinalNotes effect_nodes }

/-! ## Native plan classifier (`scene_native_runtime.rs`) -/

/-- Per-pass support record (`NativePassSupport`). -/
structure NativePassSupport where
  object_index : Nat
  object_id : Nat
  object_name : String
  pass_index : Nat
  pass_shader : String
  shader_family : String
  primary_texture : Option String
  tier : NativeSupportTier
  reason : String

/-- One draw layer (`NativeDrawLayer`). -/
structure NativeDrawLayer where
  object_index : Nat
  object_id : Nat
  object_name : String
  pass_index : Nat
  shader : String
  shader_family : String
  primary_texture : Option String
  blend_mode : String
  depth_test : String
  depth_write : String
  cull_mode : String
  alpha : ℚ
  brightness : ℚ
  tint : ℚ × ℚ × ℚ
  center_x : ℚ
  center_y : ℚ
  width : ℚ
  height : ℚ
  angle_rad : ℚ
  parallax_depth : ℚ
  visible : Bool
  shader_defines : List String
  uniforms : UserMap
  tier : NativeSupportTier

/-- The assembled plan (`NativeRuntimePlan`). -/
structure NativeRuntimePlan where
  total_pass_nodes : Nat
  ready_nodes : Nat
  experimental_nodes : Nat
  unsupported_nodes : Nat
  ready_families : List String
  experimental_families : List String
  unsupported_families : List String
  ready_draw_layers : Nat
  passes : List NativePassSupport
  draw_layers : List NativeDrawLayer
  notes : List String

/-- `f32::clamp`. -/
def clampQ (v lo hi : ℚ) : ℚ := max lo (min hi v)

/-- `parse_f32_from_value`. -/
def parse_f32_from_value : Json → Option ℚ
  | .num n => some n
  | .str s => parseRustF64 s
  | _ => none

/-- `parse_alpha`: `g_UserAlpha`, default 1, clamped to [0, 1]. -/
def parse_alpha (uniforms : UserMap) : ℚ :=
  clampQ (((mapGet uniforms "g_UserAlpha").bind parse_f32_from_value).getD 1) 0 1

/-- `parse_color3`: three whitespace-separated floats. -/
def parse_color3 (v : Json) : Option (ℚ × ℚ × ℚ) :=
  match v.asStr with
  | none => none
  | some s =>
      match splitWhitespaceChars s.data with
      | r :: g :: b :: _ => do
          let a ← parseQChars r
          let c ← parseQChars g
          let d ← parseQChars b
          pure (a, c, d)
      | _ => none

/-- `parse_brightness`: `g_Brightness`, default 1, floored at 0.05. -/
def parse_brightness (uniforms : UserMap) : ℚ :=
  max (((mapGet uniforms "g_Brightness").bind parse_f32_from_value).getD 1)
    (5 / 100)

/-- `parse_tint`: emissive color, else the average of `g_Color1` and
`g_Color2` clamped to [0, 2], else white. -/
def parse_tint (uniforms : UserMap) : ℚ × ℚ × ℚ :=
  match (mapGet uniforms "g_EmissiveColor").bind parse_color3 with
  | some v => v
  | none =>
      match (mapGet uniforms "g_Color1").bind parse_color3,
          (mapGet uniforms "g_Color2").bind parse_color3 with
      | some a, some b =>
          (clampQ ((a.1 + b.1) * (5 / 10)) 0 2,
           clampQ ((a.2.1 + b.2.1) * (5 / 10)) 0 2,
           clampQ ((a.2.2 + b.2.2) * (5 / 10)) 0 2)
      | some a, none => a
      | none, some b => b
      | none, none => (1, 1, 1)

/-- `layer_rect_from_node`: geometric realization of a node in scene
pixel space — `(center_x, center_y, width, height, angle_rad)`.  The
source coordinate space is y-up; the output is y-down. -/
def layer_rect_from_node (graph : SceneGpuGraph) (node : GpuEffectNode) :
    ℚ × ℚ × ℚ × ℚ × ℚ :=
  let scene_w : ℚ := (max graph.scene_width 1 : Nat)
  let scene_h : ℚ := (max graph.scene_height 1 : Nat)
  let origin := node.object_origin.getD (scene_w * (5 / 10), scene_h * (5 / 10), 0)
  let scale := node.object_scale.getD (1, 1, 1)
  let angles := node.object_angles.getD (0, 0, 0)
  let isParticle := strEqIgnoreCase node.object_kind "particle"
  let default_size : ℚ × ℚ :=
    if isParticle then (scene_w * (28 / 100), scene_h * (28 / 100))
    else (scene_w, scene_h)
  let base_size := (node.object_size.or node.object_asset_size).getD default_size
  let raw_w := base_size.1 * max |scale.1| (1 / 100)
  let raw_h := base_size.2 * max |scale.2.1| (1 / 100)
  let maxes : ℚ × ℚ :=
    if isParticle then (scene_w * (70 / 100), scene_h * (70 / 100))
    else (scene_w * (105 / 100), scene_h * (105 / 100))
  let width := clampQ raw_w 8 (max maxes.1 8)
  let height := clampQ raw_h 8 (max maxes.2 8)
  let center_x := clampQ origin.1 0 scene_w
  let center_y := clampQ (scene_h - origin.2.1) 0 scene_h
  let angle_rad := -angles.2.2
  (center_x, center_y, width, height, angle_rad)

/-- `first_texture`: first nonblank resolved texture, else first nonblank
logical reference. -/
def first_texture (pass : GpuPassSpec) : Option String :=
  (pass.textures.find? (fun t => (rustTrim t).data ≠ [])).orElse
    (fun _ => pass.texture_refs.find? (fun t => (rustTrim t).data ≠ []))

/-- `with_texture_gate`: invisible objects and Ready passes without a
primary texture downgrade to Unsupported. -/
def with_texture_gate (tier : NativeSupportTier) (reason : String)
    (texture : Option String) (visible : Bool) : NativeSupportTier × String :=
  if ¬visible then
    (.Unsupported, "object marked as not visible in scene")
  else
    match tier with
    | .Ready =>
        if texture.isNone then
          (.Unsupported, "ready family but pass has no primary texture")
        else (tier, reason)
    | _ => (tier, reason)

/-- Per-(node, pass) computation of the support record and draw layer. -/
def drawLayerOfPass (graph : SceneGpuGraph) (node : GpuEffectNode)
    (pass : GpuPassSpec) : NativePassSupport × NativeDrawLayer :=
  let shader :=
    if (rustTrim pass.shader).data = [] then node.pass_shader else pass.shader
  let family := shader_family shader
  let ct := classify_family shader
  let primary_texture := first_texture pass
  let gated := with_texture_gate ct.1 ct.2 primary_texture node.object_visible
  let rect := layer_rect_from_node graph node
  let parallax :=
    (node.object_parallax_depth.map (fun v => (v.1 + v.2) * (5 / 10))).getD 1
  ({ object_index := node.object_index
     object_id := node.object_id
     object_name := node.object_name
     pass_index := pass.pass_index
     pass_shader := shader
     shader_family := family
     primary_texture := primary_texture
     tier := gated.1
     reason := gated.2 },
   { object_index := node.object_index
     object_id := node.object_id
     object_name := node.object_name
     pass_index := pass.pass_index
     shader := shader
     shader_family := family
     primary_texture := primary_texture
     blend_mode := pass.blending.getD "normal"
     depth_test := pass.depth_test.getD "disabled"
     depth_write := pass.depth_write.getD "disabled"
     cull_mode := pass.cull_mode.getD "nocull"
     alpha := parse_alpha pass.effective_uniforms
     brightness := parse_brightness pass.effective_uniforms
     tint := parse_tint pass.effective_uniforms
     center_x := rect.1
     center_y := rect.2.1
     width := rect.2.2.1
     height := rect.2.2.2.1
     angle_rad := rect.2.2.2.2
     parallax_depth := parallax
     visible := node.object_visible
     shader_defines := pass.shader_defines
     uniforms := pass.effective_uniforms
     tier := gated.1 })

/-- The stable sort order of draw layers:
`(object_index, pass_index, parallax_depth, object_id)`. -/
def layerLE (a b : NativeDrawLayer) : Bool :=
  if a.object_index ≠ b.object_index then a.object_index < b.object_index
  else if a.pass_index ≠ b.pass_index then a.pass_index < b.pass_index
  else if a.parallax_depth ≠ b.parallax_depth then a.parallax_depth < b.parallax_depth
  else a.object_id ≤ b.object_id

/-- `build_native_runtime_plan`: classify every pass of every node, build
the draw layers, sort them stably, and summarize. -/
def build_native_runtime_plan (graph : SceneGpuGraph) : NativeRuntimePlan :=
  let pairs :=
    (graph.effect_nodes.map (fun node =>
      node.passes.map (fun pass => drawLayerOfPass graph node pass))).flatten
  let passes := pairs.map (·.1)
  let unsorted := pairs.map (·.2)
  let draw_layers := unsorted.mergeSort layerLE
  let ready := (passes.filter (fun p => p.tier = .Ready)).length
  let experimental := (passes.filter (fun p => p.tier = .Experimental)).length
  let unsupported := (passes.filter (fun p => p.tier = .Unsupported)).length
  let readyLayers := ready
  let famsOf := fun (t : NativeSupportTier) =>
    ((passes.filter (fun p => p.tier = t)).map (·.shader_family)).dedup
  let notes1 :=
    [s!"native support summary: ready={ready}, experimental={experimental}, unsupported={unsupported}"]
  let notes2 :=
    if 0 < readyLayers then
      [s!"native draw layers ready for first renderer pass: {readyLayers}"]
    else []
  let notes3 :=
    if ready = 0 ∧ ¬passes.isEmpty then
      ["no ready shader families detected; fallback transport recommended"]
    else []
  { total_pass_nodes := passes.length
    ready_nodes := ready
    experimental_nodes := experimental
    unsupported_nodes := unsupported
    ready_families := sortStrings (famsOf .Ready)
    experimental_families := sortStrings (famsOf .Experimental)
    unsupported_families := sortStrings (famsOf .Unsupported)
    ready_draw_layers := readyLayers
    passes := passes
    draw_layers := draw_layers
    notes := notes1 ++ notes2 ++ notes3 }

/-- C2: the sequential-cursor override selection rule.  While the cursor
plus the material pass count fits the override list, overrides are
consumed sequentially one per material pass and the cursor advances
after the last material pass; otherwise the positional fallback
`overrides[effect_pass_idx].passes[material_pass_idx]` applies if
present, else `overrides[effect_pass_idx]` only for the first material
pass, without moving the cursor.  The S3 pairing `P0←O0, P1←O1` then
`P0←O2` is the third conjunct. -/
theorem effect_override_selection_rule :
    (∀ (ovs : List Json) (epi mpi cursor count : Nat),
      mpi < count → cursor + count ≤ ovs.length →
      effect_override_for_material_pass ovs epi mpi cursor count =
        (ovs[cursor + mpi]?,
          if mpi + 1 = count then cursor + count else cursor) ∧
      (ovs[cursor + mpi]?).isSome) ∧
    (∀ (ovs : List Json) (epi mpi cursor count : Nat),
      ¬(cursor + count ≤ ovs.length) →
      (effect_override_for_material_pass ovs epi mpi cursor count).2 = cursor ∧
      (effect_override_for_material_pass ovs epi mpi cursor count).1 =
        (ovs[epi]?).bind (fun fb =>
          (((fb.get "passes").bind Json.asArr).bind
            (fun arr => arr[mpi]?)).orElse
            (fun _ => if mpi = 0 then some fb else none))) ∧
    (effect_override_for_material_pass
        [Json.str "O0", Json.str "O1", Json.str "O2"] 0 0 0 2 =
      (some (Json.str "O0"), 0) ∧
     effect_override_for_material_pass
        [Json.str "O0", Json.str "O1", Json.str "O2"] 0 1 0 2 =
      (some (Json.str "O1"), 2) ∧
     effect_override_for_material_pass
        [Json.str "O0", Json.str "O1", Json.str "O2"] 1 0 2 1 =
      (some (Json.str "O2"), 3)) := by
  refine ⟨?_, ?_, ?_, ?_, ?_⟩
  · intro ovs epi mpi cursor count hm hc
    constructor
    · unfold effect_override_for_material_pass
      rw [if_pos hc]
    · rw [List.getElem?_eq_getElem (by omega)]
      rfl
  · intro ovs epi mpi cursor count hc
    unfold effect_override_for_material_pass
    rw [if_neg hc]
    cases hfb : ovs[epi]? with
    | none => exact ⟨rfl, rfl⟩
    | some fb =>
        refine ⟨?_, ?_⟩ <;>
          cases hloc : ((fb.get "passes").bind Json.asArr).bind
            (fun arr => arr[mpi]?) <;>
          simp [hloc, Option.orElse]
  · rfl
  · rfl
  · rfl

/-- C2 witness: the sequential branch applied at a singleton override
list and the fallback branch applied past the end of an empty list. -/
theorem effect_override_selection_rule_witness :
    (effect_override_for_material_pass [Json.str "a"] 0 0 0 1 =
        (([Json.str "a"] : List Json)[0 + 0]?,
          if 0 + 1 = 1 then 0 + 1 else 0) ∧
      (([Json.str "a"] : List Json)[0 + 0]?).isSome) ∧
    (effect_override_for_material_pass [] 3 0 5 2).2 = 5 :=
  ⟨effect_override_selection_rule.1 [Json.str "a"] 0 0 0 1 (by decide) (by decide),
   (effect_override_selection_rule.2.1 [] 3 0 5 2 (by decide)).1⟩

/-- C3 counterexample: the claim says an unparseable condition always
yields visible; but with `value: false` alongside the unresolved
condition `@@`, the object is treated as invisible. -/
theorem parse_object_visible_unresolved_counterexample :
    eval_visible_condition "@@" (some "x") [] = none ∧
    parse_object_visible
        (some (Json.obj [("value", Json.bool false),
          ("user", Json.obj [("name", Json.str "x"),
            ("condition", Json.str "@@")])])) [] = false := by
  constructor <;> decide

/-- C3 (amended): when the visibility object's `user.condition`
evaluates to unresolved, visibility falls back to the object's `value`
bool when present, and only defaults to visible when there is none. -/
theorem parse_object_visible_unresolved_falls_back
    (fields : List (String × Json)) (users : UserMap)
    (u : List (String × Json))
    (huser : (Json.obj fields).get "user" = some (.obj u))
    (hcond : eval_visible_condition
        ((((Json.obj u).get "condition").bind Json.asStr).getD "")
        (((Json.obj u).get "name").bind Json.asStr) users = none) :
    parse_object_visible (some (.obj fields)) users =
      ((((Json.obj fields).get "value").bind Json.asBool).getD true) := by
  unfold parse_object_visible
  simp only [Json.asBool, Json.asObj, Json.asStr, huser, Option.some_bind,
    Option.getD_some]
  simp only [Json.asStr] at hcond
  rw [hcond]
  cases hv : ((Json.obj fields).get "value").bind Json.asBool <;>
    (simp only [Json.asBool] at hv ⊢) <;> simp [hv]

/-- C3 witness: the amended theorem at the concrete counterexample
input, showing the `value: false` fallback is what the code returns. -/
theorem parse_object_visible_unresolved_falls_back_witness :
    parse_object_visible
        (some (Json.obj [("value", Json.bool false),
          ("user", Json.obj [("name", Json.str "x"),
            ("condition", Json.str "@@")])])) [] =
      (((Json.obj [("value", Json.bool false),
          ("user", Json.obj [("name", Json.str "x"),
            ("condition", Json.str "@@")])]).get "value").bind
        Json.asBool).getD true :=
  parse_object_visible_unresolved_falls_back _ []
    [("name", Json.str "x"), ("condition", Json.str "@@")]
    (by rfl) (by decide)

/-- The clamp lower bound always holds. -/
theorem clampQ_lo_le (v lo hi : ℚ) : lo ≤ clampQ v lo hi := le_max_left lo _

/-- The clamp upper bound holds when the bounds are ordered. -/
theorem clampQ_le_hi (v lo hi : ℚ) (h : lo ≤ hi) : clampQ v lo hi ≤ hi :=
  max_le h (min_le_left hi v)

/-- A pass gated to Ready carries a texture. -/
theorem with_texture_gate_ready (tier : NativeSupportTier) (reason : String)
    (texture : Option String) (visible : Bool)
    (h : (with_texture_gate tier reason texture visible).1 = .Ready) :
    texture.isSome = true := by
  unfold with_texture_gate at h
  by_cases hv : visible
  · simp only [hv, not_true, if_neg, ite_false] at h
    cases tier with
    | Ready =>
        by_cases ht : texture.isNone
        · simp [ht] at h
        · cases texture with
          | none => simp at ht
          | some t => rfl
    | Experimental => simp at h
    | Unsupported => simp at h
  · simp [hv] at h

/-- Geometric and texture invariants of a single computed draw layer. -/
theorem drawLayerOfPass_invariants (graph : SceneGpuGraph)
    (hw : 1 ≤ graph.scene_width) (hh : 1 ≤ graph.scene_height)
    (node : GpuEffectNode) (pass : GpuPassSpec) :
    0 ≤ (drawLayerOfPass graph node pass).2.center_x ∧
    (drawLayerOfPass graph node pass).2.center_x ≤ (graph.scene_width : ℚ) ∧
    0 ≤ (drawLayerOfPass graph node pass).2.center_y ∧
    (drawLayerOfPass graph node pass).2.center_y ≤ (graph.scene_height : ℚ) ∧
    8 ≤ (drawLayerOfPass graph node pass).2.width ∧
    8 ≤ (drawLayerOfPass graph node pass).2.height ∧
    ((drawLayerOfPass graph node pass).2.tier = .Ready →
      (drawLayerOfPass graph node pass).2.primary_texture.isSome = true) := by
  have hW : ((max graph.scene_width 1 : Nat) : ℚ) = (graph.scene_width : ℚ) := by
    exact_mod_cast congrArg (Nat.cast : Nat → ℚ) (Nat.max_eq_left hw)
  have hH : ((max graph.scene_height 1 : Nat) : ℚ) = (graph.scene_height : ℚ) := by
    exact_mod_cast congrArg (Nat.cast : Nat → ℚ) (Nat.max_eq_left hh)
  refine ⟨?_, ?_, ?_, ?_, ?_, ?_, ?_⟩
  · exact clampQ_lo_le _ 0 _
  · have h2 : (drawLayerOfPass graph node pass).2.center_x ≤
        ((max graph.scene_width 1 : Nat) : ℚ) :=
      clampQ_le_hi _ 0 _ (Nat.cast_nonneg _)
    exact hW ▸ h2
  · exact clampQ_lo_le _ 0 _
  · have h2 : (drawLayerOfPass graph node pass).2.center_y ≤
        ((max graph.scene_height 1 : Nat) : ℚ) :=
      clampQ_le_hi _ 0 _ (Nat.cast_nonneg _)
    exact hH ▸ h2
  · exact clampQ_lo_le _ 8 _
  · exact clampQ_lo_le _ 8 _
  · intro hready
    exact with_texture_gate_ready _ _ _ _ hready

/-- C5: every draw layer the native plan classifier produces from a graph
with positive scene dimensions (the graph builder always clamps them to
at least 1) keeps its center inside the scene rectangle, is at least
8×8, and carries a primary texture whenever its tier is Ready. -/
theorem native_plan_draw_layer_invariants (graph : SceneGpuGraph)
    (hw : 1 ≤ graph.scene_width) (hh : 1 ≤ graph.scene_height) :
    ∀ layer ∈ (build_native_runtime_plan graph).draw_layers,
      0 ≤ layer.center_x ∧ layer.center_x ≤ (graph.scene_width : ℚ) ∧
      0 ≤ layer.center_y ∧ layer.center_y ≤ (graph.scene_height : ℚ) ∧
      8 ≤ layer.width ∧ 8 ≤ layer.height ∧
      (layer.tier = .Ready → layer.primary_texture.isSome = true) := by
  intro layer hmem
  have hmem2 := List.mem_mergeSort.mp hmem
  rcases List.mem_map.mp hmem2 with ⟨pr, hpr, rfl⟩
  rcases List.mem_flatten.mp hpr with ⟨blk, hblk, hprblk⟩
  rcases List.mem_map.mp hblk with ⟨node, hnode, rfl⟩
  rcases List.mem_map.mp hprblk with ⟨pass, hpass, rfl⟩
  exact drawLayerOfPass_invariants graph hw hh node pass

/-- The minimal graph used to witness the C5 invariants. -/
def witnessGraphC5 : SceneGpuGraph :=
  { pkg_path := ""
    scene_json_entry := "scene.json"
    scene_width := 1920
    scene_height := 1080
    global_assets_root := none
    user_properties := .obj []
    script_properties := .obj []
    script_assignments := []
    effect_nodes := []
    notes := [] }

/-- C5 witness: the invariants applied at a concrete graph with the
default 1920×1080 projection. -/
theorem native_plan_draw_layer_invariants_witness :
    1 ≤ witnessGraphC5.scene_width ∧
    ∀ layer ∈ (build_native_runtime_plan witnessGraphC5).draw_layers,
      0 ≤ layer.center_x ∧ layer.center_x ≤ (witnessGraphC5.scene_width : ℚ) ∧
      0 ≤ layer.center_y ∧ layer.center_y ≤ (witnessGraphC5.scene_height : ℚ) ∧
      8 ≤ layer.width ∧ 8 ≤ layer.height ∧
      (layer.tier = .Ready → layer.primary_texture.isSome = true) :=
  ⟨by decide,
   native_plan_draw_layer_invariants witnessGraphC5 (by decide) (by decide)⟩

/-- Claim-side count: material passes contributed by one effect-pass
entry (the pass count of the material it names, when resolvable). -/
def specEffectPassCount (r : String → Option ModelAsset) (ep : Json) : Nat :=
  match (ep.get "material").bind Json.asStr with
  | none => 0
  | some matRef =>
      match parse_json_asset r matRef with
      | none => 0
      | some (matData, _) =>
          match (matData.get "passes").bind Json.asArr with
          | none => 0
          | some ps => ps.length

/-- Claim-side count: passes contributed by one object-effect entry —
zero unless the effect is visible and resolves to a passes array. -/
def specEffectEntryCount (r : String → Option ModelAsset) (users : UserMap)
    (effect : Json) : Nat :=
  if parse_object_visible (effect.get "visible") users then
    match (effect.get "file").bind Json.asStr with
    | none => 0
    | some fileRef =>
        match parse_json_asset r fileRef with
        | none => 0
        | some (effData, _) =>
            match (effData.get "passes").bind Json.asArr with
            | none => 0
            | some effPasses =>
                (effPasses.map (specEffectPassCount r)).sum
  else 0

/-- Claim-side count: nodes contributed by one object — its base
material's pass count plus the visible effects' material pass counts
(zero when the object, its asset, or its material do not resolve). -/
def specObjectNodeCount (r : String → Option ModelAsset) (users : UserMap)
    (object : Json) : Nat :=
  let kindAsset :=
    match (object.get "image").bind Json.asStr with
    | some img => some img
    | none => (object.get "particle").bind Json.asStr
  match kindAsset with
  | none => 0
  | some assetRef =>
      match parse_json_asset r assetRef with
      | none => 0
      | some (objectData, _) =>
          match (objectData.get "material").bind Json.asStr with
          | none => 0
          | some matRef =>
              match parse_json_asset r matRef with
              | none => 0
              | some (matData, _) =>
                  match (matData.get "passes").bind Json.asArr with
                  | none => 0
                  | some passes =>
                      passes.length +
                        ((((object.get "effects").bind Json.asArr).getD []).map
                          (specEffectEntryCount r users)).sum

/-- `push_material_passes` emits one node per pass. -/
theorem length_push_material_passes (r : ResolverModel)
    (jp : String → Option Json) (ctx : PushCtx) (ps : List Json)
    (m f n : String) (ei : Option Nat) (s : Nat) :
    (push_material_passes r jp ctx ps m f n ei s).length = ps.length := by
  simp [push_material_passes]

/-- Merging preserves the number of material passes. -/
theorem length_mergeMatPasses (ovs : List Json) (epi count : Nat) :
    ∀ (mats : List Json) (i cur : Nat),
      (mergeMatPasses ovs epi count mats i cur).1.length = mats.length := by
  intro mats
  induction mats with
  | nil => intro i cur; rfl
  | cons a t ih => intro i cur; simp [mergeMatPasses, ih]

/-- The effect-pass loop emits exactly the claim-side number of nodes. -/
theorem length_processEffectPasses (r : ResolverModel)
    (jp : String → Option Json) (ctx : PushCtx) (ovs : List Json)
    (f nm : String) (ei : Nat) :
    ∀ (eps : List Json) (epi cur pi : Nat),
      (processEffectPasses r jp ctx ovs f nm ei eps epi cur pi).1.length =
        (eps.map (specEffectPassCount r.resolve)).sum := by
  intro eps
  induction eps with
  | nil => intro epi cur pi; rfl
  | cons ep rest ih =>
      intro epi cur pi
      cases h1 : (ep.get "material").bind Json.asStr with
      | none => simp [processEffectPasses, specEffectPassCount, h1, ih]
      | some matRef =>
          cases h2 : parse_json_asset r.resolve matRef with
          | none => simp [processEffectPasses, specEffectPassCount, h1, h2, ih]
          | some md =>
              obtain ⟨matData, matResolved⟩ := md
              cases h3 : (matData.get "passes").bind Json.asArr with
              | none =>
                  simp [processEffectPasses, specEffectPassCount, h1, h2, h3, ih]
              | some matPasses =>
                  simp [processEffectPasses, specEffectPassCount, h1, h2, h3,
                    length_push_material_passes, length_mergeMatPasses, ih]

/-- The effects loop emits exactly the claim-side number of nodes. -/
theorem length_processEffects (r : ResolverModel) (jp : String → Option Json)
    (ctx : PushCtx) :
    ∀ (l : List (Nat × Json)) (cur pi : Nat),
      (processEffects r jp ctx l cur pi).1.length =
        (l.map (fun p => specEffectEntryCount r.resolve ctx.user_values p.2)).sum := by
  intro l
  induction l with
  | nil => intro cur pi; rfl
  | cons hd rest ih =>
      intro cur pi
      by_cases hv : parse_object_visible (hd.2.get "visible") ctx.user_values
      · cases h1 : (hd.2.get "file").bind Json.asStr with
        | none => simp [processEffects, specEffectEntryCount, hv, h1, ih]
        | some fileRef =>
            cases h2 : parse_json_asset r.resolve fileRef with
            | none => simp [processEffects, specEffectEntryCount, hv, h1, h2, ih]
            | some ed =>
                obtain ⟨effData, effResolved⟩ := ed
                cases h3 : (effData.get "passes").bind Json.asArr with
                | none =>
                    simp [processEffects, specEffectEntryCount, hv, h1, h2, h3, ih]
                | some effPasses =>
                    simp [processEffects, specEffectEntryCount, hv, h1, h2, h3,
                      length_processEffectPasses, ih]
      · simp [processEffects, specEffectEntryCount, hv, ih]

/-- Summing a function of the payloads over an enumerated list. -/
theorem map_enum_snd_sum (l : List Json) (f : Json → Nat) :
    (l.enum.map (fun p => f p.2)).sum = (l.map f).sum := by
  have h : l.enum.map (fun p => f p.2) = (l.enum.map Prod.snd).map f := by
    rw [List.map_map]; rfl
  rw [h, List.enum_map_snd]

/-- One object's emission count equals the claim-side object count. -/
theorem length_processObject (r : ResolverModel) (jp : String → Option Json)
    (uv sv : UserMap) (idx : Nat) (object : Json) :
    (processObject r jp uv sv idx object).1.length =
      specObjectNodeCount r.resolve uv object := by
  unfold processObject specObjectNodeCount
  cases himg : (object.get "image").bind Json.asStr with
  | some img =>
      simp only [himg]
      cases h2 : parse_json_asset r.resolve img with
      | none => simp [h2]
      | some od =>
          obtain ⟨objectData, objectResolved⟩ := od
          simp only [h2]
          cases h3 : (objectData.get "material").bind Json.asStr with
          | none => simp [h3]
          | some matRef =>
              simp only [h3]
              cases h4 : parse_json_asset r.resolve matRef with
              | none => simp [h4]
              | some md =>
                  obtain ⟨matData, matResolved⟩ := md
                  simp only [h4]
                  cases h5 : (matData.get "passes").bind Json.asArr with
                  | none => simp [h5]
                  | some passes =>
                      simp only [h5]
                      cases heff : (object.get "effects").bind Json.asArr with
                      | none =>
                          simp [heff, length_push_material_passes]
                      | some effects =>
                          simp [heff, length_push_material_passes,
                            length_processEffects]
                          exact map_enum_snd_sum effects _
  | none =>
      cases hpart : (object.get "particle").bind Json.asStr with
      | none => simp [himg, hpart]
      | some p =>
          simp only [himg, hpart]
          cases h2 : parse_json_asset r.resolve p with
          | none => simp [h2]
          | some od =>
              obtain ⟨objectData, objectResolved⟩ := od
              simp only [h2]
              cases h3 : (objectData.get "material").bind Json.asStr with
              | none => simp [h3]
              | some matRef =>
                  simp only [h3]
                  cases h4 : parse_json_asset r.resolve matRef with
                  | none => simp [h4]
                  | some md =>
                      obtain ⟨matData, matResolved⟩ := md
                      simp only [h4]
                      cases h5 : (matData.get "passes").bind Json.asArr with
                      | none => simp [h5]
                      | some passes =>
                          simp only [h5]
                          cases heff : (object.get "effects").bind Json.asArr with
                          | none =>
                              simp [heff, length_push_material_passes]
                          | some effects =>
                              simp [heff, length_push_material_passes,
                                length_processEffects]
                              exact map_enum_snd_sum effects _

/-- C1 (amended): for every resolver and scene manifest that parses, the
builder terminates with a graph whose node count is the sum, over ALL
objects (visible or not — object visibility does not gate emission), of
the base material pass count plus the visible effects' material pass
counts. -/
theorem build_scene_gpu_graph_node_count (r : ResolverModel)
    (jp : String → Option Json) (a : ModelAsset) (scene : Json)
    (ha : (r.resolve "scene.json").orElse (fun _ => r.resolve "gifscene.json") =
      some a)
    (hj : a.json = some scene) :
    ∃ g, build_scene_gpu_graph r jp = some g ∧
      g.effect_nodes.length =
        ((((scene.get "objects").bind Json.asArr).getD []).map
          (specObjectNodeCount r.resolve
            (collect_scene_user_properties scene
              ((r.resolve "project.json").bind (·.json))))).sum := by
  unfold build_scene_gpu_graph
  rw [ha]
  simp only [hj]
  refine ⟨_, rfl, ?_⟩
  set uv := collect_scene_user_properties scene
    ((r.resolve "project.json").bind (·.json)) with huv
  cases hobj : (scene.get "objects").bind Json.asArr with
  | none => simp [hobj]
  | some objects =>
      simp only [hobj, Option.getD_some, List.length_flatten, List.map_map]
      have step : List.map (List.length ∘ (fun x => x.1) ∘ fun oi : Nat × Json =>
            processObject r jp uv (List.foldl (fun m a =>
              match a.resolved_value with
              | some v => mapSet m a.target_property v
              | none => m) [] (apply_scene_scripts scene uv).assignments)
            oi.1 oi.2) objects.enum =
          List.map (fun oi : Nat × Json =>
            specObjectNodeCount r.resolve uv oi.2) objects.enum :=
        List.map_congr_left (fun oi _ => length_processObject r jp uv _ oi.1 oi.2)
      rw [step]
      exact map_enum_snd_sum objects _

/-- A one-object scene whose only object is invisible
(`visible: false`) but has a resolvable material with one pass. -/
def cexScene : Json :=
  .obj [("objects", .arr
    [.obj [("image", .str "obj.json"), ("visible", .bool false)]])]

/-- A concrete resolver serving the scene, the object and its one-pass
material. -/
def cexResolver : ResolverModel :=
  { resolve := fun p =>
      if p = "scene.json" then
        some { resolved_path := "scene.json", json := some cexScene, text := none }
      else if p = "obj.json" then
        some { resolved_path := "obj.json",
               json := some (.obj [("material", .str "mat.json")]), text := none }
      else if p = "mat.json" then
        some { resolved_path := "mat.json",
               json := some (.obj [("passes", .arr [.obj [("shader", .str "")]])]),
               text := none }
      else none
    pkg_path := none
    global_assets_root := none }

/-- C1 counterexample: the builder emits one node for the invisible
object, while the claim's sum over visible objects is zero — object
visibility does not gate emission. -/
theorem build_scene_gpu_graph_visible_count_counterexample :
    (∃ g, build_scene_gpu_graph cexResolver (fun _ => none) = some g ∧
      g.effect_nodes.length = 1) ∧
    (((((cexScene.get "objects").bind Json.asArr).getD []).filter
        (fun object => parse_object_visible (object.get "visible")
          (collect_scene_user_properties cexScene
            ((cexResolver.resolve "project.json").bind (·.json))))).map
      (specObjectNodeCount cexResolver.resolve
        (collect_scene_user_properties cexScene
          ((cexResolver.resolve "project.json").bind (·.json))))).sum = 0 := by
  exact ⟨⟨_, rfl, rfl⟩, rfl⟩

/-- C1 witness: the amended count equation instantiated at the concrete
scene and resolver above. -/
theorem build_scene_gpu_graph_node_count_witness :
    ∃ g, build_scene_gpu_graph cexResolver (fun _ => none) = some g ∧
      g.effect_nodes.length =
        ((((cexScene.get "objects").bind Json.asArr).getD []).map
          (specObjectNodeCount cexResolver.resolve
            (collect_scene_user_properties cexScene
              ((cexResolver.resolve "project.json").bind (·.json))))).sum :=
  build_scene_gpu_graph_node_count cexResolver (fun _ => none)
    { resolved_path := "scene.json", json := some cexScene, text := none }
    cexScene (by rfl) (by rfl)

/-- `mapIdx` with an index-projecting function yields the index range. -/
theorem mapIdx_pass_index_range (ps : List Json) :
    ∀ (f : Nat → Json → GpuEffectNode) (start : Nat),
      (∀ i p, (f i p).pass_index = start + i) →
      (ps.mapIdx f).map (·.pass_index) = List.range' start ps.length := by
  induction ps with
  | nil => intro f start _; rfl
  | cons a t ih =>
      intro f start hf
      rw [List.mapIdx_cons, List.length_cons, List.range'_succ]
      simp only [List.map_cons]
      rw [hf 0 a, Nat.add_zero]
      rw [ih (fun i => f (i + 1)) (start + 1)
        (fun i p => by rw [hf (i + 1) p]; omega)]

/-- The emitted pass indices of one `push_material_passes` block are
consecutive from `startIdx`, every node carries exactly its one pass
spec with the matching index, and all nodes carry the context's object
index. -/
theorem push_material_passes_spec (r : ResolverModel)
    (jp : String → Option Json) (ctx : PushCtx) (ps : List Json)
    (m f nm : String) (ei : Option Nat) (s : Nat) :
    (push_material_passes r jp ctx ps m f nm ei s).map (·.pass_index) =
      List.range' s ps.length ∧
    ∀ node ∈ push_material_passes r jp ctx ps m f nm ei s,
      node.object_index = ctx.object_index ∧
      ∃ p, node.passes = [p] ∧ p.pass_index = node.pass_index := by
  constructor
  · exact mapIdx_pass_index_range ps _ s (fun i p => rfl)
  · intro node hmem
    unfold push_material_passes at hmem
    rw [List.mapIdx_eq_enum_map] at hmem
    rcases List.mem_map.mp hmem with ⟨ip, _, rfl⟩
    exact ⟨rfl, _, rfl, rfl⟩

/-- Appending two index ranges with matching endpoints. -/
theorem range'_append_one (s m n : Nat) :
    List.range' s m ++ List.range' (s + m) n = List.range' s (m + n) := by
  have h := List.range'_append s m n 1
  simp only [Nat.one_mul, Nat.mul_one] at h
  rw [h, Nat.add_comm n m]

/-- Index contiguity and node shape through the effect-pass loop:
the emitted indices continue from `pi`, and the final pass counter is
`pi` plus the number of emitted nodes. -/
theorem processEffectPasses_spec (r : ResolverModel)
    (jp : String → Option Json) (ctx : PushCtx) (ovs : List Json)
    (f nm : String) (ei : Nat) :
    ∀ (eps : List Json) (epi cur pi : Nat),
      ((processEffectPasses r jp ctx ovs f nm ei eps epi cur pi).1.map
        (·.pass_index) =
        List.range' pi
          (processEffectPasses r jp ctx ovs f nm ei eps epi cur pi).1.length) ∧
      ((processEffectPasses r jp ctx ovs f nm ei eps epi cur pi).2.2.2 =
        pi + (processEffectPasses r jp ctx ovs f nm ei eps epi cur pi).1.length) ∧
      ∀ node ∈ (processEffectPasses r jp ctx ovs f nm ei eps epi cur pi).1,
        node.object_index = ctx.object_index ∧
        ∃ p, node.passes = [p] ∧ p.pass_index = node.pass_index := by
  intro eps
  induction eps with
  | nil =>
      intro epi cur pi
      exact ⟨rfl, rfl, fun node h => absurd h (List.not_mem_nil node)⟩
  | cons ep rest ih =>
      intro epi cur pi
      cases h1 : (ep.get "material").bind Json.asStr with
      | none =>
          have heq : processEffectPasses r jp ctx ovs f nm ei (ep :: rest)
              epi cur pi =
              processEffectPasses r jp ctx ovs f nm ei rest (epi + 1) cur pi := by
            conv_lhs => unfold processEffectPasses
            rw [h1]
          rw [heq]
          exact ih (epi + 1) cur pi
      | some matRef =>
          cases h2 : parse_json_asset r.resolve matRef with
          | none =>
              have heq : processEffectPasses r jp ctx ovs f nm ei (ep :: rest)
                  epi cur pi =
                  ((processEffectPasses r jp ctx ovs f nm ei rest (epi + 1)
                      cur pi).1,
                   s!"Object {ctx.object_name} effect material not found: {matRef}" ::
                     (processEffectPasses r jp ctx ovs f nm ei rest (epi + 1)
                       cur pi).2.1,
                   (processEffectPasses r jp ctx ovs f nm ei rest (epi + 1)
                     cur pi).2.2) := by
                simp only [processEffectPasses, h1, h2]
              rw [heq]
              exact ih (epi + 1) cur pi
          | some md =>
              obtain ⟨matData, matResolved⟩ := md
              cases h3 : (matData.get "passes").bind Json.asArr with
              | none =>
                  have heq : processEffectPasses r jp ctx ovs f nm ei (ep :: rest)
                      epi cur pi =
                      processEffectPasses r jp ctx ovs f nm ei rest (epi + 1)
                        cur pi := by
                    simp only [processEffectPasses, h1, h2, h3]
                  rw [heq]
                  exact ih (epi + 1) cur pi
              | some matPasses =>
                  have heq : processEffectPasses r jp ctx ovs f nm ei (ep :: rest)
                      epi cur pi =
                      (push_material_passes r jp ctx
                        (mergeMatPasses ovs epi matPasses.length matPasses 0
                          cur).1 matResolved f nm (some ei) pi ++
                        (processEffectPasses r jp ctx ovs f nm ei rest (epi + 1)
                          (mergeMatPasses ovs epi matPasses.length matPasses 0
                            cur).2
                          (pi + (mergeMatPasses ovs epi matPasses.length
                            matPasses 0 cur).1.length)).1,
                       (processEffectPasses r jp ctx ovs f nm ei rest (epi + 1)
                          (mergeMatPasses ovs epi matPasses.length matPasses 0
                            cur).2
                          (pi + (mergeMatPasses ovs epi matPasses.length
                            matPasses 0 cur).1.length)).2.1,
                       (processEffectPasses r jp ctx ovs f nm ei rest (epi + 1)
                          (mergeMatPasses ovs epi matPasses.length matPasses 0
                            cur).2
                          (pi + (mergeMatPasses ovs epi matPasses.length
                            matPasses 0 cur).1.length)).2.2) := by
                    simp only [processEffectPasses, h1, h2, h3]
                  rw [heq]
                  have hpush := push_material_passes_spec r jp ctx
                    (mergeMatPasses ovs epi matPasses.length matPasses 0 cur).1
                    matResolved f nm (some ei) pi
                  have hlenpush := length_push_material_passes r jp ctx
                    (mergeMatPasses ovs epi matPasses.length matPasses 0 cur).1
                    matResolved f nm (some ei) pi
                  have hrest := ih (epi + 1)
                    (mergeMatPasses ovs epi matPasses.length matPasses 0 cur).2
                    (pi + (mergeMatPasses ovs epi matPasses.length matPasses 0
                      cur).1.length)
                  refine ⟨?_, ?_, ?_⟩
                  · rw [List.map_append, hpush.1, hrest.1, List.length_append,
                      hlenpush]
                    exact range'_append_one pi _ _
                  · rw [List.length_append, hrest.2.1, hlenpush]
                    omega
                  · intro node hmem
                    rcases List.mem_append.mp hmem with hmem | hmem
                    · exact hpush.2 node hmem
                    · exact hrest.2.2 node hmem

/-- Index contiguity and node shape through the effects loop: the
emitted indices continue from `pi`, and every node carries the context
object index and a single pass spec with the matching index. -/
theorem processEffects_spec (r : ResolverModel) (jp : String → Option Json)
    (ctx : PushCtx) :
    ∀ (l : List (Nat × Json)) (cur pi : Nat),
      ((processEffects r jp ctx l cur pi).1.map (·.pass_index) =
        List.range' pi (processEffects r jp ctx l cur pi).1.length) ∧
      ∀ node ∈ (processEffects r jp ctx l cur pi).1,
        node.object_index = ctx.object_index ∧
        ∃ p, node.passes = [p] ∧ p.pass_index = node.pass_index := by
  intro l
  induction l with
  | nil =>
      intro cur pi
      exact ⟨rfl, fun node h => absurd h (List.not_mem_nil node)⟩
  | cons hd rest ih =>
      intro cur pi
      obtain ⟨effectIdx, effect⟩ := hd
      by_cases hv : parse_object_visible (effect.get "visible") ctx.user_values
      · cases h1 : (effect.get "file").bind Json.asStr with
        | none =>
            have heq : (processEffects r jp ctx ((effectIdx, effect) :: rest)
                cur pi).1 = (processEffects r jp ctx rest cur pi).1 := by
              simp [processEffects, hv, h1]
            rw [heq]
            exact ih cur pi
        | some fileRef =>
            cases h2 : parse_json_asset r.resolve fileRef with
            | none =>
                have heq : (processEffects r jp ctx ((effectIdx, effect) :: rest)
                    cur pi).1 = (processEffects r jp ctx rest cur pi).1 := by
                  simp [processEffects, hv, h1, h2]
                rw [heq]
                exact ih cur pi
            | some ed =>
                obtain ⟨effData, effResolved⟩ := ed
                cases h3 : (effData.get "passes").bind Json.asArr with
                | none =>
                    have heq : (processEffects r jp ctx
                        ((effectIdx, effect) :: rest) cur pi).1 =
                        (processEffects r jp ctx rest cur pi).1 := by
                      simp [processEffects, hv, h1, h2, h3]
                    rw [heq]
                    exact ih cur pi
                | some effPasses =>
                    have heq : (processEffects r jp ctx
                        ((effectIdx, effect) :: rest) cur pi).1 =
                        (processEffectPasses r jp ctx
                          (((effect.get "passes").bind Json.asArr).getD [])
                          effResolved (effectNameOfPath effResolved) effectIdx
                          effPasses 0 cur pi).1 ++
                        (processEffects r jp ctx rest
                          (processEffectPasses r jp ctx
                            (((effect.get "passes").bind Json.asArr).getD [])
                            effResolved (effectNameOfPath effResolved) effectIdx
                            effPasses 0 cur pi).2.2.1
                          (processEffectPasses r jp ctx
                            (((effect.get "passes").bind Json.asArr).getD [])
                            effResolved (effectNameOfPath effResolved) effectIdx
                            effPasses 0 cur pi).2.2.2).1 := by
                      simp [processEffects, hv, h1, h2, h3]
                    rw [heq]
                    have hT := processEffectPasses_spec r jp ctx
                      (((effect.get "passes").bind Json.asArr).getD [])
                      effResolved (effectNameOfPath effResolved) effectIdx
                      effPasses 0 cur pi
                    have hrest := ih
                      (processEffectPasses r jp ctx
                        (((effect.get "passes").bind Json.asArr).getD [])
                        effResolved (effectNameOfPath effResolved) effectIdx
                        effPasses 0 cur pi).2.2.1
                      (processEffectPasses r jp ctx
                        (((effect.get "passes").bind Json.asArr).getD [])
                        effResolved (effectNameOfPath effResolved) effectIdx
                        effPasses 0 cur pi).2.2.2
                    constructor
                    · rw [List.map_append, hT.1, hrest.1, List.length_append,
                        hT.2.1]
                      exact range'_append_one pi _ _
                    · intro node hmem
                      rcases List.mem_append.mp hmem with h | h
                      · exact hT.2.2 node h
                      · exact hrest.2 node h
      · have heq : (processEffects r jp ctx ((effectIdx, effect) :: rest)
            cur pi).1 = (processEffects r jp ctx rest cur pi).1 := by
          simp [processEffects, hv]
        rw [heq]
        exact ih cur pi

/-- The base-material block followed by the effects block of one object:
indices run from 0 and every node carries the context object index. -/
theorem object_block_spec (r : ResolverModel) (jp : String → Option Json)
    (ctx : PushCtx) (passes : List Json) (m ef en : String)
    (l : List (Nat × Json)) :
    ((push_material_passes r jp ctx passes m ef en none 0 ++
        (processEffects r jp ctx l 0 passes.length).1).map (·.pass_index) =
      List.range' 0
        (push_material_passes r jp ctx passes m ef en none 0 ++
          (processEffects r jp ctx l 0 passes.length).1).length) ∧
    ∀ node ∈ push_material_passes r jp ctx passes m ef en none 0 ++
        (processEffects r jp ctx l 0 passes.length).1,
      node.object_index = ctx.object_index ∧
      ∃ p, node.passes = [p] ∧ p.pass_index = node.pass_index := by
  have hb := push_material_passes_spec r jp ctx passes m ef en none 0
  have hlen := length_push_material_passes r jp ctx passes m ef en none 0
  have he := processEffects_spec r jp ctx l 0 passes.length
  constructor
  · rw [List.map_append, hb.1, he.1, List.length_append, hlen]
    have h := range'_append_one 0 passes.length
      (processEffects r jp ctx l 0 passes.length).1.length
    rw [Nat.zero_add] at h
    exact h
  · intro node hmem
    rcases List.mem_append.mp hmem with h | h
    · exact hb.2 node h
    · exact he.2 node h

/-- One object's emitted nodes have pass indices `0, 1, …` in emission
order, every node carries the object index, and each node holds exactly
one pass spec with the matching index. -/
theorem processObject_spec (r : ResolverModel) (jp : String → Option Json)
    (uv sv : UserMap) (idx : Nat) (object : Json) :
    ((processObject r jp uv sv idx object).1.map (·.pass_index) =
      List.range' 0 (processObject r jp uv sv idx object).1.length) ∧
    ∀ node ∈ (processObject r jp uv sv idx object).1,
      node.object_index = idx ∧
      ∃ p, node.passes = [p] ∧ p.pass_index = node.pass_index := by
  unfold processObject
  cases himg : (object.get "image").bind Json.asStr with
  | some img =>
      simp only [himg]
      cases h2 : parse_json_asset r.resolve img with
      | none =>
          exact ⟨rfl, fun node h => absurd h (List.not_mem_nil node)⟩
      | some od =>
          obtain ⟨objectData, objectResolved⟩ := od
          simp only [h2]
          cases h3 : (objectData.get "material").bind Json.asStr with
          | none =>
              exact ⟨rfl, fun node h => absurd h (List.not_mem_nil node)⟩
          | some matRef =>
              simp only [h3]
              cases h4 : parse_json_asset r.resolve matRef with
              | none =>
                  exact ⟨rfl, fun node h => absurd h (List.not_mem_nil node)⟩
              | some md =>
                  obtain ⟨matData, matResolved⟩ := md
                  simp only [h4]
                  cases h5 : (matData.get "passes").bind Json.asArr with
                  | none =>
                      exact ⟨rfl, fun node h => absurd h (List.not_mem_nil node)⟩
                  | some passes =>
                      simp only [h5]
                      cases heff : (object.get "effects").bind Json.asArr with
                      | none =>
                          simp only [heff]
                          have h := object_block_spec r jp
                            { object_index := idx
                              object_id := ((object.get "id").bind
                                Json.asU64).getD 0
                              object_name := ((object.get "name").bind
                                Json.asStr).getD ""
                              object_kind := "image"
                              object_asset_resolved := objectResolved
                              object_origin := (object.get "origin").bind
                                parse_vec3
                              object_scale := (object.get "scale").bind
                                parse_vec3
                              object_angles := (object.get "angles").bind
                                parse_vec3
                              object_size := (object.get "size").bind parse_vec2
                              object_asset_size :=
                                parse_width_height_from_object_data objectData
                              object_parallax_depth :=
                                (object.get "parallaxDepth").bind parse_vec2
                              object_visible := parse_object_visible
                                (object.get "visible") uv
                              instance_override :=
                                match object.get "instanceoverride" with
                                | some v => resolve_user_bound_value v uv
                                | none => Json.null
                              user_values := uv
                              script_values := sv }
                            passes matResolved matResolved "base-material" []
                          simpa [processEffects] using h
                      | some effects =>
                          simp only [heff]
                          exact object_block_spec r jp _ passes matResolved
                            matResolved "base-material" effects.enum
  | none =>
      cases hpart : (object.get "particle").bind Json.asStr with
      | none =>
          simp only [himg, hpart]
          exact ⟨rfl, fun node h => absurd h (List.not_mem_nil node)⟩
      | some p =>
          simp only [himg, hpart]
          cases h2 : parse_json_asset r.resolve p with
          | none =>
              exact ⟨rfl, fun node h => absurd h (List.not_mem_nil node)⟩
          | some od =>
              obtain ⟨objectData, objectResolved⟩ := od
              simp only [h2]
              cases h3 : (objectData.get "material").bind Json.asStr with
              | none =>
                  exact ⟨rfl, fun node h => absurd h (List.not_mem_nil node)⟩
              | some matRef =>
                  simp only [h3]
                  cases h4 : parse_json_asset r.resolve matRef with
                  | none =>
                      exact ⟨rfl, fun node h => absurd h (List.not_mem_nil node)⟩
                  | some md =>
                      obtain ⟨matData, matResolved⟩ := md
                      simp only [h4]
                      cases h5 : (matData.get "passes").bind Json.asArr with
                      | none =>
                          exact ⟨rfl, fun node h =>
                            absurd h (List.not_mem_nil node)⟩
                      | some passes =>
                          simp only [h5]
                          cases heff : (object.get "effects").bind Json.asArr with
                          | none =>
                              simp only [heff]
                              have h := object_block_spec r jp
                                { object_index := idx
                                  object_id := ((object.get "id").bind
                                    Json.asU64).getD 0
                                  object_name := ((object.get "name").bind
                                    Json.asStr).getD ""
                                  object_kind := "particle"
                                  object_asset_resolved := objectResolved
                                  object_origin := (object.get "origin").bind
                                    parse_vec3
                                  object_scale := (object.get "scale").bind
                                    parse_vec3
                                  object_angles := (object.get "angles").bind
                                    parse_vec3
                                  object_size := (object.get "size").bind
                                    parse_vec2
                                  object_asset_size :=
                                    parse_width_height_from_object_data
                                      objectData
                                  object_parallax_depth :=
                                    (object.get "parallaxDepth").bind parse_vec2
                                  object_visible := parse_object_visible
                                    (object.get "visible") uv
                                  instance_override :=
                                    match object.get "instanceoverride" with
                                    | some v => resolve_user_bound_value v uv
                                    | none => Json.null
                                  user_values := uv
                                  script_values := sv }
                                passes matResolved matResolved "base-material" []
                              simpa [processEffects] using h
                          | some effects =>
                              simp only [heff]
                              exact object_block_spec r jp _ passes matResolved
                                matResolved "base-material" effects.enum

/-- Every node in the flattened object blocks enumerated from `n` has
object index at least `n`. -/
theorem mem_flatten_blocks_ge (r : ResolverModel) (jp : String → Option Json)
    (uv sv : UserMap) :
    ∀ (l : List Json) (n : Nat) (x : GpuEffectNode),
      x ∈ ((List.enumFrom n l).map
        (fun oi => (processObject r jp uv sv oi.1 oi.2).1)).flatten →
      n ≤ x.object_index := by
  intro l
  induction l with
  | nil => intro n x hx; simp [List.enumFrom] at hx
  | cons obj rest ih =>
      intro n x hx
      rw [List.enumFrom_cons, List.map_cons, List.flatten_cons] at hx
      rcases List.mem_append.mp hx with h | h
      · exact le_of_eq ((processObject_spec r jp uv sv n obj).2 x h).1.symm
      · exact Nat.le_of_succ_le (ih (n + 1) x h)

/-- Filtering the flattened object blocks by one object index returns
either nothing or exactly that object's block. -/
theorem filter_flatten_blocks (r : ResolverModel) (jp : String → Option Json)
    (uv sv : UserMap) :
    ∀ (l : List Json) (n i : Nat),
      (((List.enumFrom n l).map
        (fun oi => (processObject r jp uv sv oi.1 oi.2).1)).flatten.filter
          (fun x => x.object_index == i) = []) ∨
      (∃ obj, ((List.enumFrom n l).map
        (fun oi => (processObject r jp uv sv oi.1 oi.2).1)).flatten.filter
          (fun x => x.object_index == i) =
        (processObject r jp uv sv i obj).1) := by
  intro l
  induction l with
  | nil => intro n i; left; rfl
  | cons obj rest ih =>
      intro n i
      rw [List.enumFrom_cons, List.map_cons, List.flatten_cons,
        List.filter_append]
      by_cases hin : i = n
      · subst hin
        right
        refine ⟨obj, ?_⟩
        have h1 : (processObject r jp uv sv i obj).1.filter
            (fun x => x.object_index == i) =
            (processObject r jp uv sv i obj).1 :=
          List.filter_eq_self.mpr (fun x hx => by
            have hox := ((processObject_spec r jp uv sv i obj).2 x hx).1
            simp [hox])
        have h2 : (((List.enumFrom (i + 1) rest).map
            (fun oi => (processObject r jp uv sv oi.1 oi.2).1)).flatten.filter
              (fun x => x.object_index == i)) = [] :=
          List.filter_eq_nil_iff.mpr (fun x hx => by
            have hge := mem_flatten_blocks_ge r jp uv sv rest (i + 1) x hx
            simp only [beq_iff_eq]
            omega)
        rw [h1, h2, List.append_nil]
      · have h1 : (processObject r jp uv sv n obj).1.filter
            (fun x => x.object_index == i) = [] :=
          List.filter_eq_nil_iff.mpr (fun x hx => by
            have hox := ((processObject_spec r jp uv sv n obj).2 x hx).1
            simp only [beq_iff_eq, hox]
            omega)
        rw [h1, List.nil_append]
        exact ih (n + 1) i

/-- C10: for every resolver and scene manifest that parses, the builder
succeeds and every emitted node holds exactly one pass spec whose
pass index equals the node-level pass index; moreover, for every object
index, the nodes of that object in emission order carry the consecutive
pass indices 0, 1, 2, … (base-material passes first, then effect passes). -/
theorem build_scene_gpu_graph_pass_indices (r : ResolverModel)
    (jp : String → Option Json) (a : ModelAsset) (scene : Json)
    (ha : (r.resolve "scene.json").orElse (fun _ => r.resolve "gifscene.json") =
      some a)
    (hj : a.json = some scene) :
    ∃ g, build_scene_gpu_graph r jp = some g ∧
      (∀ node ∈ g.effect_nodes,
        ∃ p, node.passes = [p] ∧ p.pass_index = node.pass_index) ∧
      ∀ i, ((g.effect_nodes.filter (fun x => x.object_index == i)).map
          (·.pass_index)) =
        List.range
          ((g.effect_nodes.filter (fun x => x.object_index == i)).length) := by
  unfold build_scene_gpu_graph
  rw [ha]
  simp only [hj]
  refine ⟨_, rfl, ?_, ?_⟩
  · cases hobj : (scene.get "objects").bind Json.asArr with
    | none => simp [hobj]
    | some objects =>
        simp only [hobj, List.map_map]
        intro node hnode
        rcases List.mem_flatten.mp hnode with ⟨blk, hblk, hmem⟩
        rcases List.mem_map.mp hblk with ⟨oi, _, rfl⟩
        exact ((processObject_spec r jp _ _ oi.1 oi.2).2 node hmem).2
  · cases hobj : (scene.get "objects").bind Json.asArr with
    | none => simp [hobj]
    | some objects =>
        simp only [hobj, List.map_map]
        intro i
        have hcomp : ((fun x : List GpuEffectNode × List String => x.1) ∘
            fun oi : Nat × Json =>
              processObject r jp
                (collect_scene_user_properties scene
                  ((r.resolve "project.json").bind (·.json)))
                (List.foldl (fun m a =>
                  match a.resolved_value with
                  | some v => mapSet m a.target_property v
                  | none => m) []
                  (apply_scene_scripts scene
                    (collect_scene_user_properties scene
                      ((r.resolve "project.json").bind (·.json)))).assignments)
                oi.1 oi.2) =
            fun oi : Nat × Json =>
              (processObject r jp
                (collect_scene_user_properties scene
                  ((r.resolve "project.json").bind (·.json)))
                (List.foldl (fun m a =>
                  match a.resolved_value with
                  | some v => mapSet m a.target_property v
                  | none => m) []
                  (apply_scene_scripts scene
                    (collect_scene_user_properties scene
                      ((r.resolve "project.json").bind (·.json)))).assignments)
                oi.1 oi.2).1 := rfl
    
        rw [hcomp, List.enum_eq_enumFrom]
        rcases filter_flatten_blocks r jp
          (collect_scene_user_properties scene
            ((r.resolve "project.json").bind (·.json)))
          (List.foldl (fun m a =>
            match a.resolved_value with
            | some v => mapSet m a.target_property v
            | none => m) []
            (apply_scene_scripts scene
              (collect_scene_user_properties scene
                ((r.resolve "project.json").bind (·.json)))).assignments)
          objects 0 i with h | hblk
        · rw [h]; rfl
        · rcases hblk with ⟨obj, h⟩
          rw [h, List.range_eq_range']
          exact (processObject_spec r jp _ _ i obj).1

/-- C10 witness: the pass-index invariants instantiated at the concrete
one-object scene and resolver. -/
theorem build_scene_gpu_graph_pass_indices_witness :
    ∃ g, build_scene_gpu_graph cexResolver (fun _ => none) = some g ∧
      (∀ node ∈ g.effect_nodes,
        ∃ p, node.passes = [p] ∧ p.pass_index = node.pass_index) ∧
      ∀ i, ((g.effect_nodes.filter (fun x => x.object_index == i)).map
          (·.pass_index)) =
        List.range
          ((g.effect_nodes.filter (fun x => x.object_index == i)).length) :=
  build_scene_gpu_graph_pass_indices cexResolver (fun _ => none)
    { resolved_path := "scene.json", json := some cexScene, text := none }
    cexScene (by rfl) (by rfl)
